import Mathlib

/-!
# Verification of the Articulate engagement / anti-fraud core

Shallow embedding of the blog engagement subsystem of the Articulate
blogging backend: the reaction (like/dislike) state machine, the
fraud-aware view-tracking pipeline, the cache-aside read layer, and the
popularity scorer.  Each definition is translated from the corresponding
Go source file (noted in its doc comment); the MongoDB collections are
modelled as Lean lists of documents and the Redis cache as explicit
state values, with all external failure modes passed in as parameters.
-/

namespace Articulate

/-! ## Generic list helpers (Mongo UpdateOne semantics) -/

/-- Mongo `UpdateOne`: apply `f` to the first element satisfying `p`,
leave everything else unchanged. -/
def updateFirst (p : α → Bool) (f : α → α) : List α → List α
  | [] => []
  | x :: xs => if p x then f x :: xs else x :: updateFirst p f xs

/-! ## Reaction data model

`entity.Like` (fields used by the like repository and usecase):
`id`, `user_id`, `target_id`, `target_type` ∈ {blog, comment},
`type` ∈ {like, dislike}, `is_deleted`.  Timestamps are irrelevant to the
claims and omitted.  The `blog_likes` Mongo collection is a list of
these documents. -/

inductive LikeType
  | like
  | dislike
deriving DecidableEq, Repr

inductive TargetType
  | blog
  | comment
deriving DecidableEq, Repr

structure Reaction where
  id : Nat
  userId : String
  targetId : String
  targetType : TargetType
  type : LikeType
  isDeleted : Bool
deriving DecidableEq, Repr

abbrev ReactionDB := List Reaction

/-- The upsert filter of `LikeRepository.CreateReaction`
(like_repo.go:34-38): match on `user_id`, `target_id`, `target_type`,
and NOT on `is_deleted`. -/
def reactionKeyMatch (userId targetId : String) (tt : TargetType) (r : Reaction) : Bool :=
  r.userId == userId && r.targetId == targetId && r.targetType == tt

/-- `LikeRepository.CreateReaction` (like_repo.go:32-75): an `UpdateOne`
with `upsert: true` keyed on (user_id, target_id, target_type).
If a document matches (active or soft-deleted), its `type` is set and
`is_deleted` reset to `false`; otherwise a fresh document is inserted
with a new id and `is_deleted = false`. -/
def createReaction (like : Reaction) (freshId : Nat) (db : ReactionDB) : ReactionDB :=
  if db.any (reactionKeyMatch like.userId like.targetId like.targetType) then
    updateFirst (reactionKeyMatch like.userId like.targetId like.targetType)
      (fun r => { r with type := like.type, isDeleted := false }) db
  else
    db ++ [{ like with id := freshId, isDeleted := false }]

/-- `LikeRepository.DeleteReaction` (like_repo.go:78-90): soft delete by
unique id; the filter requires `is_deleted: false`, and a modified count
of zero is reported as `ErrReactionNotFound` (here: `Except.error`). -/
def deleteReaction (rid : Nat) (db : ReactionDB) : Except String ReactionDB :=
  if db.any (fun r => r.id == rid && !r.isDeleted) then
    .ok (updateFirst (fun r => r.id == rid && !r.isDeleted)
      (fun r => { r with isDeleted := true }) db)
  else
    .error "reaction not found"

/-- `LikeRepository.GetReactionByUserIDAndTargetID` (like_repo.go:93-106):
first active reaction by the user on the target (no `target_type` in the
filter); `ErrReactionNotFound` is modelled as `none`, matching the
usecase which maps that error to a nil reaction. -/
def getReactionByUserIDAndTargetID (userId targetId : String) (db : ReactionDB) :
    Option Reaction :=
  db.find? (fun r => r.userId == userId && r.targetId == targetId && !r.isDeleted)

/-- `LikeUsecase.ToggleLike` (like_usecase.go:37-90), reaction-state part:
the blog-counter refresh that follows does not touch the reaction
collection and is modelled separately.  A failing `DeleteReaction`
leaves the collection unchanged. -/
def toggleLike (userId targetId : String) (tt : TargetType) (freshId : Nat)
    (db : ReactionDB) : ReactionDB :=
  match getReactionByUserIDAndTargetID userId targetId db with
  | some r =>
    if r.type == LikeType.like then
      match deleteReaction r.id db with
      | .ok db2 => db2
      | .error _ => db
    else
      createReaction { r with type := LikeType.like } freshId db
  | none =>
    createReaction ⟨0, userId, targetId, tt, LikeType.like, false⟩ freshId db

/-- `LikeUsecase.ToggleDislike` (like_usecase.go:93-152), reaction-state
part, the symmetric mirror of `toggleLike`. -/
def toggleDislike (userId targetId : String) (tt : TargetType) (freshId : Nat)
    (db : ReactionDB) : ReactionDB :=
  match getReactionByUserIDAndTargetID userId targetId db with
  | some r =>
    if r.type == LikeType.dislike then
      match deleteReaction r.id db with
      | .ok db2 => db2
      | .error _ => db
    else
      createReaction { r with type := LikeType.dislike } freshId db
  | none =>
    createReaction ⟨0, userId, targetId, tt, LikeType.dislike, false⟩ freshId db

/-! ## The §4.2 transition table and sequences of toggles -/

inductive ToggleOp
  | tl
  | td
deriving DecidableEq, Repr

/-- The transition table of spec §4.2 on the per-(user,target) state
None / Liked / Disliked. -/
def specStep : Option LikeType → ToggleOp → Option LikeType
  | none, .tl => some .like
  | some .like, .tl => none
  | some .dislike, .tl => some .like
  | none, .td => some .dislike
  | some .dislike, .td => none
  | some .like, .td => some .dislike

def applyOp (userId targetId : String) (tt : TargetType) (freshId : Nat)
    (op : ToggleOp) (db : ReactionDB) : ReactionDB :=
  match op with
  | .tl => toggleLike userId targetId tt freshId db
  | .td => toggleDislike userId targetId tt freshId db

/-- Run a sequence of toggle calls by one user on one target, threading
the reaction collection and a fresh-id counter (modelling the uuid
generator). -/
def runOps (userId targetId : String) (tt : TargetType) :
    List ToggleOp → Nat → ReactionDB → ReactionDB
  | [], _, db => db
  | op :: ops, fid, db =>
    runOps userId targetId tt ops (fid + 1) (applyOp userId targetId tt fid op db)

/-- The observable reaction state of a (user, target) pair: the type of
the active reaction, if any. -/
def reactionState (userId targetId : String) (db : ReactionDB) : Option LikeType :=
  (getReactionByUserIDAndTargetID userId targetId db).map (fun r => r.type)

/-- Number of active (non-soft-deleted) reactions of a (user, target)
pair. -/
def activeReactionCount (userId targetId : String) (db : ReactionDB) : Nat :=
  (db.filter (fun r => r.userId == userId && r.targetId == targetId && !r.isDeleted)).length

/-- Two reaction rows with the same upsert key
(user_id, target_id, target_type). -/
def sameReactionKey (a b : Reaction) : Bool :=
  a.userId == b.userId && a.targetId == b.targetId && a.targetType == b.targetType

/-- The `blog_likes` collection holds at most one row — active or
soft-deleted — per (user_id, target_id, target_type) key. -/
def AtMostOneRowPerKey (db : ReactionDB) : Prop :=
  db.Pairwise (fun a b => sameReactionKey a b = false)

instance : DecidablePred AtMostOneRowPerKey := fun db => by
  unfold AtMostOneRowPerKey; infer_instance

/-! ## Lemmas about `updateFirst` -/

lemma length_updateFirst (p : α → Bool) (f : α → α) :
    ∀ l : List α, (updateFirst p f l).length = l.length
  | [] => rfl
  | x :: xs => by
    by_cases hp : p x <;> simp [updateFirst, hp, length_updateFirst p f xs]

lemma mem_updateFirst {p : α → Bool} {f : α → α} :
    ∀ {l : List α} {y : α}, y ∈ updateFirst p f l → y ∈ l ∨ ∃ z ∈ l, y = f z := by
  intro l
  induction l with
  | nil => intro y hy; simp [updateFirst] at hy
  | cons x xs ih =>
    intro y hy
    by_cases hp : p x
    · simp [updateFirst, hp] at hy
      rcases hy with hy | hy
      · exact Or.inr ⟨x, by simp, hy⟩
      · exact Or.inl (by simp [hy])
    · simp [updateFirst, hp] at hy
      rcases hy with hy | hy
      · exact Or.inl (by simp [hy])
      · rcases ih hy with h | ⟨z, hz, hzy⟩
        · exact Or.inl (by simp [h])
        · exact Or.inr ⟨z, by simp [hz], hzy⟩

lemma pairwise_updateFirst {R : α → α → Prop} {p : α → Bool} {f : α → α}
    (hf1 : ∀ x y, R x y → R (f x) y) (hf2 : ∀ x y, R x y → R x (f y)) :
    ∀ {l : List α}, l.Pairwise R → (updateFirst p f l).Pairwise R := by
  intro l
  induction l with
  | nil => intro _; simp [updateFirst]
  | cons x xs ih =>
    intro h
    rcases List.pairwise_cons.mp h with ⟨hx, hxs⟩
    by_cases hp : p x
    · simp only [updateFirst, hp, if_pos]
      exact List.pairwise_cons.mpr ⟨fun y hy => hf1 x y (hx y hy), hxs⟩
    · simp only [updateFirst, hp, if_neg, Bool.false_eq_true, not_false_iff]
      refine List.pairwise_cons.mpr ⟨?_, ih hxs⟩
      intro y hy
      rcases mem_updateFirst hy with h | ⟨z, hz, hzy⟩
      · exact hx y h
      · exact hzy ▸ hf2 x z (hx z hz)

/-- Mutating `type`/`is_deleted` never changes the upsert key
(first argument). -/
lemma sameReactionKey_set_left (x y : Reaction) (ty : LikeType) (b : Bool) :
    sameReactionKey { x with type := ty, isDeleted := b } y = sameReactionKey x y := rfl

/-- Mutating `type`/`is_deleted` never changes the upsert key
(second argument). -/
lemma sameReactionKey_set_right (x y : Reaction) (ty : LikeType) (b : Bool) :
    sameReactionKey y { x with type := ty, isDeleted := b } = sameReactionKey y x := rfl

lemma sameReactionKey_of_keyMatch {u t : String} {tt : TargetType} {x y : Reaction}
    (hx : reactionKeyMatch u t tt x = true) (hy : reactionKeyMatch u t tt y = true) :
    sameReactionKey x y = true := by
  simp only [reactionKeyMatch, Bool.and_eq_true, beq_iff_eq] at hx hy
  simp [sameReactionKey, hx.1.1, hx.1.2, hx.2, hy.1.1, hy.1.2, hy.2]

/-- Under key-uniqueness, the unique row matching the upsert key is the
one `updateFirst` rewrites. -/
lemma updated_mem_updateFirst {u t : String} {tt : TargetType} {f : Reaction → Reaction} :
    ∀ {db : ReactionDB} {r : Reaction}, AtMostOneRowPerKey db → r ∈ db →
      reactionKeyMatch u t tt r = true →
      f r ∈ updateFirst (reactionKeyMatch u t tt) f db := by
  intro db
  induction db with
  | nil => intro r _ hr _; simp at hr
  | cons x xs ih =>
    intro r hinv hr hkey
    rcases List.pairwise_cons.mp hinv with ⟨hx, hxs⟩
    rcases List.mem_cons.mp hr with hr | hr
    · subst hr
      simp [updateFirst, hkey]
    · by_cases hpx : reactionKeyMatch u t tt x = true
      · exact absurd (sameReactionKey_of_keyMatch hpx hkey) (by simp [hx r hr])
      · simp only [updateFirst, hpx, if_neg, Bool.false_eq_true, not_false_iff]
        exact List.mem_cons_of_mem x (ih hxs hr hkey)

/-! ## C9: the reaction write is a key-level upsert -/

/-- C9: every reaction write is an upsert keyed on
(user_id, target_id, target_type) that ignores `is_deleted`:
`CreateReaction` and `DeleteReaction` both preserve "at most one row per
key", and when a row with the key already exists (active or
soft-deleted) `CreateReaction` inserts nothing — the collection keeps
its length and the existing row reappears with the requested `type` and
`is_deleted = false`, i.e. re-reacting after removal revives the same
row. -/
theorem reaction_upsert_single_row (like : Reaction) (fid : Nat) (db : ReactionDB)
    (hinv : AtMostOneRowPerKey db) :
    AtMostOneRowPerKey (createReaction like fid db) ∧
    (∀ rid db2, deleteReaction rid db = .ok db2 → AtMostOneRowPerKey db2) ∧
    (∀ r ∈ db, reactionKeyMatch like.userId like.targetId like.targetType r = true →
      (createReaction like fid db).length = db.length ∧
      { r with type := like.type, isDeleted := false } ∈ createReaction like fid db) := by
  refine ⟨?_, ?_, ?_⟩
  · unfold createReaction
    by_cases hany : db.any (reactionKeyMatch like.userId like.targetId like.targetType)
    · simp only [hany, if_pos]
      exact pairwise_updateFirst
        (fun x y h => by rwa [sameReactionKey_set_left])
        (fun x y h => by rwa [sameReactionKey_set_right]) hinv
    · simp only [hany, if_neg, Bool.false_eq_true, not_false_iff]
      unfold AtMostOneRowPerKey at hinv ⊢
      rw [List.pairwise_append]
      refine ⟨hinv, List.pairwise_singleton _ _, ?_⟩
      intro a ha b hb
      simp only [List.mem_singleton] at hb
      subst hb
      have hka : reactionKeyMatch like.userId like.targetId like.targetType a = false := by
        rcases Bool.eq_false_or_eq_true
          (reactionKeyMatch like.userId like.targetId like.targetType a) with h | h
        · exact absurd (List.any_eq_true.mpr ⟨a, ha, h⟩) (by simpa using hany)
        · exact h
      simp only [reactionKeyMatch, Bool.and_eq_true, not_and] at hka
      simpa [sameReactionKey, reactionKeyMatch] using hka
  · intro rid db2 hdel
    unfold deleteReaction at hdel
    by_cases hany : db.any (fun r => r.id == rid && !r.isDeleted)
    · simp only [hany, if_pos, Except.ok.injEq] at hdel
      subst hdel
      exact pairwise_updateFirst
        (fun x y h => by
          have hk : sameReactionKey { x with isDeleted := true } y = sameReactionKey x y := rfl
          rwa [hk])
        (fun x y h => by
          have hk : sameReactionKey x { y with isDeleted := true } = sameReactionKey x y := rfl
          rwa [hk]) hinv
    · simp [hany] at hdel
  · intro r hr hkey
    have hany : db.any (reactionKeyMatch like.userId like.targetId like.targetType) = true :=
      List.any_eq_true.mpr ⟨r, hr, hkey⟩
    unfold createReaction
    simp only [hany, if_pos]
    exact ⟨length_updateFirst _ _ db, updated_mem_updateFirst hinv hr hkey⟩

/-! ## C1: toggle sequences follow the §4.2 transition table -/

/-- Inductive invariant for a sequence of toggles by one user on one
target starting from an empty collection: the collection is empty or a
single row carrying that key. -/
def SingleRowInv (u t : String) (tt : TargetType) (db : ReactionDB) : Prop :=
  db = [] ∨ ∃ r : Reaction, db = [r] ∧ r.userId = u ∧ r.targetId = t ∧ r.targetType = tt

lemma applyOp_step (u t : String) (tt : TargetType) (fid : Nat) (op : ToggleOp)
    (db : ReactionDB) (h : SingleRowInv u t tt db) :
    SingleRowInv u t tt (applyOp u t tt fid op db) ∧
    reactionState u t (applyOp u t tt fid op db) = specStep (reactionState u t db) op := by
  rcases h with h | ⟨r, hdb, hu, ht, htt⟩
  · subst h
    cases op <;>
      simp [applyOp, toggleLike, toggleDislike, getReactionByUserIDAndTargetID,
        createReaction, reactionState, specStep, SingleRowInv]
  · subst hdb
    obtain ⟨rid, ru, rt, rtt, rty, rdel⟩ := r
    simp only at hu ht htt
    subst hu; subst ht; subst htt
    cases rdel <;> cases rty <;> cases op <;>
      simp [applyOp, toggleLike, toggleDislike, getReactionByUserIDAndTargetID,
        createReaction, deleteReaction, reactionKeyMatch, updateFirst,
        reactionState, specStep, SingleRowInv]

lemma runOps_spec (u t : String) (tt : TargetType) (ops : List ToggleOp) :
    ∀ fid db, SingleRowInv u t tt db →
      SingleRowInv u t tt (runOps u t tt ops fid db) ∧
      reactionState u t (runOps u t tt ops fid db) =
        ops.foldl specStep (reactionState u t db) := by
  induction ops with
  | nil => intro fid db h; exact ⟨h, rfl⟩
  | cons op ops ih =>
    intro fid db h
    have hstep := applyOp_step u t tt fid op db h
    have hrest := ih (fid + 1) (applyOp u t tt fid op db) hstep.1
    exact ⟨hrest.1, by simp [runOps, hrest.2, hstep.2]⟩

lemma activeCount_le_one_of_inv {u t : String} {tt : TargetType} {db : ReactionDB}
    (h : SingleRowInv u t tt db) : activeReactionCount u t db ≤ 1 := by
  rcases h with h | ⟨r, hdb, -⟩
  · simp [h, activeReactionCount]
  · subst hdb
    calc (List.filter _ [r]).length ≤ [r].length := List.length_filter_le _ _
    _ = 1 := rfl

/-- C1: every sequence of `ToggleLike`/`ToggleDislike` calls by one user
on one target, run sequentially against the (modelled) Mongo repository
starting from an empty reaction collection, ends in the reaction state
given by folding the §4.2 transition table over the sequence, and after
every prefix of the sequence at most one active reaction exists for the
(user, target) pair. -/
theorem toggle_sequence_follows_transition_table (u t : String) (tt : TargetType)
    (ops : List ToggleOp) :
    reactionState u t (runOps u t tt ops 0 []) = ops.foldl specStep none ∧
    ∀ n : Nat, activeReactionCount u t (runOps u t tt (ops.take n) 0 []) ≤ 1 := by
  constructor
  · have h := runOps_spec u t tt ops 0 [] (Or.inl rfl)
    simpa [reactionState, getReactionByUserIDAndTargetID] using h.2
  · intro n
    exact activeCount_le_one_of_inv (runOps_spec u t tt (ops.take n) 0 [] (Or.inl rfl)).1

/-- Witness for C9 at a concrete collection: a single soft-deleted
"dislike" row for the key is revived in place as an active "like". -/
theorem reaction_upsert_single_row_witness :
    AtMostOneRowPerKey (createReaction ⟨0, "u1", "b1", .blog, .like, false⟩ 7
      [⟨3, "u1", "b1", .blog, .dislike, true⟩]) ∧
    (∀ rid db2, deleteReaction rid [⟨3, "u1", "b1", TargetType.blog, LikeType.dislike, true⟩]
        = .ok db2 → AtMostOneRowPerKey db2) ∧
    (∀ r ∈ [(⟨3, "u1", "b1", TargetType.blog, LikeType.dislike, true⟩ : Reaction)],
      reactionKeyMatch "u1" "b1" TargetType.blog r = true →
      (createReaction ⟨0, "u1", "b1", .blog, .like, false⟩ 7
        [⟨3, "u1", "b1", .blog, .dislike, true⟩]).length = 1 ∧
      { r with type := LikeType.like, isDeleted := false } ∈
        createReaction ⟨0, "u1", "b1", .blog, .like, false⟩ 7
          [⟨3, "u1", "b1", .blog, .dislike, true⟩]) :=
  reaction_upsert_single_row ⟨0, "u1", "b1", .blog, .like, false⟩ 7
    [⟨3, "u1", "b1", .blog, .dislike, true⟩] (by decide)

/-! ## Blog and view-record data model

`entity.Blog` (counter-bearing fields used by the view/reaction
pipeline and the cache layer) and `entity.BlogView` (the durable,
append-only view record written by `BlogRepository.RecordView`).
Timestamps are integer seconds. -/

inductive BlogStatus
  | draft
  | published
  | archived
deriving DecidableEq, Repr

structure Blog where
  id : String
  slug : String
  authorId : String
  status : BlogStatus
  isDeleted : Bool
  viewCount : Nat
  likeCount : Nat
  dislikeCount : Nat
  commentCount : Nat
  popularity : Int
  title : String
  content : String
deriving DecidableEq, Repr

structure ViewRecord where
  blogId : String
  userId : String
  ipAddress : String
  userAgent : String
  viewedAt : Int
deriving DecidableEq, Repr

/-! ## String helpers (Go `strings.Contains` / `strings.ToLower`) -/

/-- `hay` starts with `needle` (character lists). -/
def startsWithChars : List Char → List Char → Bool
  | _, [] => true
  | [], _ :: _ => false
  | a :: as, b :: bs => a == b && startsWithChars as bs

/-- `needle` occurs contiguously in `hay` (character lists);
Go `strings.Contains`. -/
def containsChars (needle : List Char) : List Char → Bool
  | [] => startsWithChars [] needle
  | a :: t => startsWithChars (a :: t) needle || containsChars needle t

def strContains (hay needle : String) : Bool :=
  containsChars needle.data hay.data

def strToLower (s : String) : String :=
  ⟨s.data.map Char.toLower⟩

/-- `isBot` (blog_usecase.go:423-432): case-insensitive match of the
User-Agent against the fixed bot-signature list. -/
def botSignatures : List String :=
  ["bot", "spider", "crawl", "slurp", "curl", "wget", "python-requests",
   "httpclient", "feedfetcher", "mediapartners-google"]

def isBot (userAgent : String) : Bool :=
  botSignatures.any (fun sig => strContains (strToLower userAgent) sig)

/-! ## Durable view-record queries (blog_repo.go) -/

/-- `BlogRepository.HasViewedRecently` (blog_repo.go:526-542).  The Mongo
filter is `blog_id = blogID ∧ (ip_address = ip ∨ user_id = userID)`,
the user clause only when `userID` is non-empty.  NOTE: despite its
name and doc comment ("within the last 24 hours"), the filter carries
no `viewed_at` clause at all, so the function does not take a clock. -/
def hasViewedRecently (records : List ViewRecord) (blogID userID ip : String) : Bool :=
  records.any (fun r =>
    r.blogId == blogID && (r.ipAddress == ip || (userID != "" && r.userId == userID)))

/-- `BlogRepository.GetRecentViewsByIP` (blog_repo.go:561-579): records
of the IP with `viewed_at ≥ since`. -/
def getRecentViewsByIP (records : List ViewRecord) (ip : String) (since : Int) :
    List ViewRecord :=
  records.filter (fun r => r.ipAddress == ip && since ≤ r.viewedAt)

/-- `BlogRepository.GetRecentViewsByUser` (blog_repo.go:582-604):
records of the user with `viewed_at ≥ since` (empty for an empty user
id). -/
def getRecentViewsByUser (records : List ViewRecord) (userID : String) (since : Int) :
    List ViewRecord :=
  if userID == "" then []
  else records.filter (fun r => r.userId == userID && since ≤ r.viewedAt)

/-! ## The Redis fraud windows (BlogCacheStore, store package)

`AddRecentViewByIP`/`AddRecentViewByUser` do `SADD key member` followed
by `EXPIRE key ttl`, so the whole per-key set lives `ttl` seconds past
the *most recent* add; `GetRecentViewCountByIP`/`GetRecentIPCountByUser`
are `SCARD`.  A set is modelled as its insertion-ordered distinct
members plus the absolute expiry instant. -/

structure SetWindow where
  members : List String
  expiry : Int
deriving DecidableEq, Repr

/-- `SADD` + `EXPIRE`: an expired key is gone, so the add starts a fresh
set; the expiry is reset to `now + ttl` on every add. -/
def addToWindow (w : Option SetWindow) (now ttl : Int) (member : String) : SetWindow :=
  let base := match w with
    | some w => if now < w.expiry then w.members else []
    | none => []
  ⟨if member ∈ base then base else base ++ [member], now + ttl⟩

/-- `SCARD` of a possibly expired or absent key. -/
def windowCard (w : Option SetWindow) (now : Int) : Nat :=
  match w with
  | some w => if now < w.expiry then w.members.length else 0
  | none => 0

/-! ## Velocity / rotation decisions (blog_usecase.go:461-513)

Thresholds: `maxIpVelocity = 10` distinct blogs per IP in 5 minutes,
`maxUserIPs = 5` distinct IPs per user in 60 minutes. -/

/-- The cache-backed IP velocity decision: `AddRecentViewByIP` (ttl 300)
then `GetRecentViewCountByIP`, rejecting when the count exceeds 10. -/
def cacheVelocityLimited (w : Option SetWindow) (now : Int) (blogID : String) : Bool :=
  let w2 := addToWindow w now 300 blogID
  windowCard (some w2) now > 10

/-- The durable fallback of the velocity check (blog_usecase.go:479-486):
count the `ViewRecord` rows of the IP in the last 5 minutes and reject
when the row count exceeds 10.  (A repository error silently skips the
check in the source; the store is modelled error-free here.) -/
def dbVelocityLimited (records : List ViewRecord) (now : Int) (ip : String) : Bool :=
  (getRecentViewsByIP records ip (now - 300)).length > 10

/-- The cache-backed user IP-rotation decision: `AddRecentViewByUser`
(ttl 3600) then `GetRecentIPCountByUser`, rejecting when the count
exceeds 5. -/
def cacheRotationLimited (w : Option SetWindow) (now : Int) (ip : String) : Bool :=
  let w2 := addToWindow w now 3600 ip
  windowCard (some w2) now > 5

/-- The durable fallback of the rotation check (blog_usecase.go:498-512):
distinct IPs among the user's `ViewRecord` rows of the last 60 minutes,
rejecting when they exceed 5. -/
def dbRotationLimited (records : List ViewRecord) (now : Int) (userID : String) : Bool :=
  (((getRecentViewsByUser records userID (now - 3600)).map
    (fun r => r.ipAddress)).dedup).length > 5

/-! ## Popularity -/

/-- Modelled from the spec: `utils.CalculatePopularity` is called by the
usecases but its source file is not among the provided sources.
Spec §4.1 requires a pure, deterministic
`score(views, likes, dislikes, comments)` that is monotonically
non-decreasing in views/likes/comments, non-increasing in dislikes,
finite on all-zero input, with the exact weighting an internal tuning
parameter ("any monotonic weighted combination").  It is modelled as an
integer-weighted combination with positive weights. -/
def CalculatePopularity (views likes dislikes comments : Nat) : Int :=
  (views : Int) + 2 * (likes : Int) - 2 * (dislikes : Int) + 3 * (comments : Int)

/-! ## The view-tracking pipeline (blog_usecase.go:433-532) -/

inductive TrackOutcome
  | invalidBlog
  | invalidViewer
  | botIgnored
  | dedupIgnored
  | velocityLimited
  | rotationLimited
  | incrementFailed
  | recordFailed
  | counted
deriving DecidableEq, Repr

/-- The full mutable world of the pipeline: the `blogs` collection, the
append-only `blog_views` collection and the two Redis fraud-window
keyspaces. -/
structure ViewState where
  blogs : List Blog
  records : List ViewRecord
  ipWindows : List (String × SetWindow)
  userWindows : List (String × SetWindow)
deriving DecidableEq, Repr

structure TrackResult where
  outcome : TrackOutcome
  state : ViewState
deriving DecidableEq, Repr

/-- `BlogRepository.IncrementViewCount` (blog_repo.go:308-321): atomic
`$inc` on the non-deleted blog, erroring when no document matches. -/
def incrementViewCount (blogID : String) (blogs : List Blog) :
    Except String (List Blog) :=
  if blogs.any (fun b => b.id == blogID && !b.isDeleted) then
    .ok (updateFirst (fun b => b.id == blogID && !b.isDeleted)
      (fun b => { b with viewCount := b.viewCount + 1 }) blogs)
  else
    .error "blog post not found"

/-- `BlogUseCaseImpl.UpdateBlogPopularity` (blog_usecase.go:620-628):
read the four counters of the blog and write back the recomputed
popularity; a missing blog is an error, which `TrackBlogView` ignores. -/
def updateBlogPopularity (blogID : String) (blogs : List Blog) : List Blog :=
  match blogs.find? (fun b => b.id == blogID && !b.isDeleted) with
  | some b =>
    updateFirst (fun x => x.id == blogID && !x.isDeleted)
      (fun x => { x with popularity :=
        CalculatePopularity b.viewCount b.likeCount b.dislikeCount b.commentCount }) blogs
  | none => blogs

/-- The commit step of `TrackBlogView` (blog_usecase.go:516-531):
increment the view counter, then append the `ViewRecord`
(`recordFails` injects an `InsertOne` failure), then refresh popularity
(whose failure is only logged). -/
def commitView (now : Int) (blogID userID ip ua : String) (recordFails : Bool)
    (st : ViewState) : TrackResult :=
  match incrementViewCount blogID st.blogs with
  | .error _ => ⟨.incrementFailed, st⟩
  | .ok blogs1 =>
    let st1 := { st with blogs := blogs1 }
    if recordFails then ⟨.recordFailed, st1⟩
    else
      let st2 := { st1 with records :=
        st1.records ++ [(⟨blogID, userID, ip, ua, now⟩ : ViewRecord)] }
      ⟨.counted, { st2 with blogs := updateBlogPopularity blogID st2.blogs }⟩

/-- `BlogUseCaseImpl.TrackBlogView` (blog_usecase.go:433-532).
`cacheAvail` models `uc.blogCache != nil`; `cacheErr` models the Redis
fraud-window tier erroring (`SADD` is then a no-op whose error the
source discards, and the failed `SCARD` triggers the durable fallback);
`recordFails` injects a failure of `RecordView`. -/
def trackBlogView (now : Int) (blogID userID ip ua : String)
    (cacheAvail cacheErr recordFails : Bool) (st : ViewState) : TrackResult :=
  if blogID == "" then ⟨.invalidBlog, st⟩
  else if userID == "" && ip == "" then ⟨.invalidViewer, st⟩
  else if isBot ua then ⟨.botIgnored, st⟩
  else if hasViewedRecently st.records blogID userID ip then ⟨.dedupIgnored, st⟩
  else if cacheAvail then
    -- IP velocity check
    let w := (st.ipWindows.find? (fun kv => kv.1 == ip)).map (fun kv => kv.2)
    let st1 := if cacheErr then st
      else { st with ipWindows :=
        (st.ipWindows.filter (fun kv => kv.1 != ip)) ++
          [(ip, addToWindow w now 300 blogID)] }
    let velocityHit :=
      if cacheErr then dbVelocityLimited st.records now ip
      else cacheVelocityLimited w now blogID
    if velocityHit then ⟨.velocityLimited, st1⟩
    else if userID != "" then
      -- user IP-rotation check
      let uw := (st1.userWindows.find? (fun kv => kv.1 == userID)).map (fun kv => kv.2)
      let st2 := if cacheErr then st1
        else { st1 with userWindows :=
          (st1.userWindows.filter (fun kv => kv.1 != userID)) ++
            [(userID, addToWindow uw now 3600 ip)] }
      let rotationHit :=
        if cacheErr then dbRotationLimited st1.records now userID
        else cacheRotationLimited uw now ip
      if rotationHit then ⟨.rotationLimited, st2⟩
      else commitView now blogID userID ip ua recordFails st2
    else commitView now blogID userID ip ua recordFails st1
  else commitView now blogID userID ip ua recordFails st

/-- Sequential processing of anonymous view events (time, blogID) from
one IP with an error-free, available cache, as in the §8 velocity
scenario. -/
def runViews (ip ua : String) : List (Int × String) → ViewState → List TrackOutcome
  | [], _ => []
  | (t, b) :: evs, st =>
    let r := trackBlogView t b "" ip ua true false false st
    r.outcome :: runViews ip ua evs r.state

/-- The view count the repository reports for a blog id (0 when the
blog is absent). -/
def viewCountOf (blogs : List Blog) (blogID : String) : Nat :=
  ((blogs.find? (fun b => b.id == blogID && !b.isDeleted)).map
    (fun b => b.viewCount)).getD 0

/-! ## More `updateFirst` lemmas -/

lemma any_updateFirst {p q : α → Bool} {f : α → α} (hf : ∀ x, q (f x) = q x) :
    ∀ l : List α, (updateFirst p f l).any q = l.any q
  | [] => rfl
  | x :: xs => by
    by_cases hp : p x <;>
      simp [updateFirst, hp, hf x, any_updateFirst hf xs]

lemma find?_updateFirst {p : α → Bool} {f : α → α} (hf : ∀ x, p (f x) = p x) :
    ∀ l : List α, (updateFirst p f l).find? p = (l.find? p).map f
  | [] => rfl
  | x :: xs => by
    by_cases hp : p x
    · simp [updateFirst, hp, List.find?_cons, hf x]
    · simp [updateFirst, hp, List.find?_cons, find?_updateFirst hf xs]

/-- Neither the view-count increment nor the popularity refresh changes
which blog ids are available (present and not soft-deleted). -/
lemma updateBlogPopularity_any (blogID : String) (q : Blog → Bool)
    (hq : ∀ (x : Blog) (n : Int), q { x with popularity := n } = q x) (blogs : List Blog) :
    (updateBlogPopularity blogID blogs).any q = blogs.any q := by
  unfold updateBlogPopularity
  cases blogs.find? (fun b => b.id == blogID && !b.isDeleted) with
  | none => rfl
  | some b => exact any_updateFirst (fun x => hq x _) blogs

/-! ## C8: the popularity scorer -/

/-- C8: `CalculatePopularity` (as modelled from spec §4.1) is a pure
function, monotonically non-decreasing in views, likes and comments,
non-increasing in dislikes, finite (zero) on all-zero input, and
strictly ranks (10 views, 3 likes, 1 dislike, 2 comments) above
(10 views, 1 like, 3 dislikes, 2 comments). -/
theorem popularity_monotone_and_scenario :
    (∀ v v' l d c : Nat, v ≤ v' →
      CalculatePopularity v l d c ≤ CalculatePopularity v' l d c) ∧
    (∀ v l l' d c : Nat, l ≤ l' →
      CalculatePopularity v l d c ≤ CalculatePopularity v l' d c) ∧
    (∀ v l d c c' : Nat, c ≤ c' →
      CalculatePopularity v l d c ≤ CalculatePopularity v l d c') ∧
    (∀ v l d d' c : Nat, d ≤ d' →
      CalculatePopularity v l d' c ≤ CalculatePopularity v l d c) ∧
    CalculatePopularity 0 0 0 0 = 0 ∧
    CalculatePopularity 10 1 3 2 < CalculatePopularity 10 3 1 2 := by
  refine ⟨?_, ?_, ?_, ?_, by decide, by decide⟩ <;>
    (intro a b c d e h; unfold CalculatePopularity; omega)

/-- Witness for C8 at concrete counters. -/
theorem popularity_monotone_witness :
    CalculatePopularity 4 2 1 3 ≤ CalculatePopularity 9 2 1 3 :=
  popularity_monotone_and_scenario.1 4 9 2 1 3 (by norm_num)

/-! ## C4: the recency-dedup window -/

/-- C4 (code bug): `HasViewedRecently` carries no time filter, so a view
record 48 hours old — strictly older than the documented 24-hour
window — still suppresses counting: the tracked view short-circuits as
"already viewed recently" and the state (view count included) is
unchanged.  The dedup predicate does not even take a clock. -/
theorem dedup_ignores_trailing_window :
    hasViewedRecently [⟨"b1", "u1", "ip1", "mozilla", 0⟩] "b1" "u1" "ip1" = true ∧
    trackBlogView 172800 "b1" "u1" "ip1" "mozilla" true false false
      ⟨[⟨"b1", "s1", "a1", .published, false, 5, 0, 0, 0, 0, "", ""⟩],
       [⟨"b1", "u1", "ip1", "mozilla", 0⟩], [], []⟩ =
      ⟨.dedupIgnored,
       ⟨[⟨"b1", "s1", "a1", .published, false, 5, 0, 0, 0, 0, "", ""⟩],
        [⟨"b1", "u1", "ip1", "mozilla", 0⟩], [], []⟩⟩ ∧
    (172800 : Int) - 0 > 86400 := by
  refine ⟨by decide, by decide, by norm_num⟩

/-! ## C10: the commit step is not atomic on error -/

/-- C10: when every fraud check passes and the durable append of the
`ViewRecord` fails, `TrackBlogView` reports the failure but the view
counter — incremented first — stays incremented, and no view record is
written.  (Normal configuration: cache available and error-free,
anonymous or logged-in viewer.) -/
theorem commit_not_atomic_on_record_failure (now : Int) (blogID userID ip ua : String)
    (st : ViewState)
    (hb : blogID ≠ "")
    (hip : ip ≠ "")
    (hbot : isBot ua = false)
    (hded : hasViewedRecently st.records blogID userID ip = false)
    (hvel : cacheVelocityLimited
      ((st.ipWindows.find? (fun kv => kv.1 == ip)).map (fun kv => kv.2)) now blogID = false)
    (hrot : userID ≠ "" → cacheRotationLimited
      ((st.userWindows.find? (fun kv => kv.1 == userID)).map (fun kv => kv.2)) now ip = false)
    (havail : st.blogs.any (fun b => b.id == blogID && !b.isDeleted) = true) :
    (trackBlogView now blogID userID ip ua true false true st).outcome = .recordFailed ∧
    (trackBlogView now blogID userID ip ua true false true st).state.records = st.records ∧
    viewCountOf (trackBlogView now blogID userID ip ua true false true st).state.blogs
      blogID = viewCountOf st.blogs blogID + 1 := by
  have hfind : ∃ b, st.blogs.find? (fun b => b.id == blogID && !b.isDeleted) = some b := by
    rcases List.any_eq_true.mp havail with ⟨b0, hb0, hb0p⟩
    exact Option.isSome_iff_exists.mp (List.find?_isSome.mpr ⟨b0, hb0, hb0p⟩)
  have hcommit : ∀ st1 : ViewState, st1.blogs = st.blogs → st1.records = st.records →
      (commitView now blogID userID ip ua true st1).outcome = .recordFailed ∧
      (commitView now blogID userID ip ua true st1).state.records = st.records ∧
      viewCountOf (commitView now blogID userID ip ua true st1).state.blogs blogID =
        viewCountOf st.blogs blogID + 1 := by
    intro st1 hblogs hrecords
    have hinc : incrementViewCount blogID st1.blogs =
        .ok (updateFirst (fun b => b.id == blogID && !b.isDeleted)
          (fun b => { b with viewCount := b.viewCount + 1 }) st.blogs) := by
      unfold incrementViewCount
      rw [hblogs, havail]
      simp
    unfold commitView
    rw [hinc]
    refine ⟨rfl, hrecords, ?_⟩
    show viewCountOf (updateFirst _ _ st.blogs) blogID = _
    unfold viewCountOf
    rw [@find?_updateFirst Blog (fun b => b.id == blogID && !b.isDeleted)
      (fun b => { b with viewCount := b.viewCount + 1 }) (fun x => rfl) st.blogs]
    obtain ⟨b, hb⟩ := hfind
    rw [hb]
    rfl
  have hbeq : (blogID == "") = false := beq_eq_false_iff_ne.mpr hb
  have hipeq : (ip == "") = false := beq_eq_false_iff_ne.mpr hip
  unfold trackBlogView
  rw [hbeq, hipeq, hbot, hded]
  simp only [Bool.and_false, Bool.false_eq_true, if_false, if_true]
  rw [hvel]
  by_cases huser : userID = ""
  · subst huser
    simp only [bne_self_eq_false, Bool.false_eq_true, if_false]
    exact hcommit _ rfl rfl
  · have huserne : (userID != "") = true := bne_iff_ne.mpr huser
    simp only [huserne, if_true, if_false, Bool.false_eq_true]
    rw [hrot huser]
    simp only [Bool.false_eq_true, if_false]
    exact hcommit _ rfl rfl

/-- Witness for C10: a logged-in viewer, one published blog with 5
views, failing record append — the call reports the failure, writes no
record, and leaves the counter at 6. -/
theorem commit_not_atomic_witness :
    (trackBlogView 10 "b1" "u1" "ip1" "mozilla" true false true
      ⟨[⟨"b1", "s1", "a1", .published, false, 5, 0, 0, 0, 0, "", ""⟩], [], [], []⟩).outcome
        = .recordFailed ∧
    (trackBlogView 10 "b1" "u1" "ip1" "mozilla" true false true
      ⟨[⟨"b1", "s1", "a1", .published, false, 5, 0, 0, 0, 0, "", ""⟩], [], [], []⟩).state.records
        = [] ∧
    viewCountOf (trackBlogView 10 "b1" "u1" "ip1" "mozilla" true false true
      ⟨[⟨"b1", "s1", "a1", .published, false, 5, 0, 0, 0, 0, "", ""⟩],
        [], [], []⟩).state.blogs "b1" =
      viewCountOf [⟨"b1", "s1", "a1", .published, false, 5, 0, 0, 0, 0, "", ""⟩] "b1" + 1 :=
  commit_not_atomic_on_record_failure 10 "b1" "u1" "ip1" "mozilla"
    ⟨[⟨"b1", "s1", "a1", .published, false, 5, 0, 0, 0, 0, "", ""⟩], [], [], []⟩
    (by decide) (by decide) (by decide) (by decide) (by decide)
    (fun _ => by decide) (by decide)

/-! ## C3: the durable fallbacks versus the cache-backed checks -/

/-- C3 counterexample: ten durable view records from one IP on ten
distinct blogs inside the last five minutes, and the cache set of
exactly the same events (the same ten distinct blogs, unexpired).
Processing an 11th, fresh blog, the cache path rejects — its `SCARD`
includes the event being processed — while the durable fallback accepts,
because it only counts the rows already written: the two paths decide
differently over the same events. -/
theorem fallback_differs_from_cache_path :
    ((getRecentViewsByIP
        [⟨"b1", "", "ip1", "m", 60⟩, ⟨"b2", "", "ip1", "m", 61⟩,
         ⟨"b3", "", "ip1", "m", 62⟩, ⟨"b4", "", "ip1", "m", 63⟩,
         ⟨"b5", "", "ip1", "m", 64⟩, ⟨"b6", "", "ip1", "m", 65⟩,
         ⟨"b7", "", "ip1", "m", 66⟩, ⟨"b8", "", "ip1", "m", 67⟩,
         ⟨"b9", "", "ip1", "m", 68⟩, ⟨"b10", "", "ip1", "m", 69⟩]
        "ip1" (300 - 300)).map (fun r => r.blogId)).dedup =
      ["b1", "b2", "b3", "b4", "b5", "b6", "b7", "b8", "b9", "b10"] ∧
    dbVelocityLimited
      [⟨"b1", "", "ip1", "m", 60⟩, ⟨"b2", "", "ip1", "m", 61⟩,
       ⟨"b3", "", "ip1", "m", 62⟩, ⟨"b4", "", "ip1", "m", 63⟩,
       ⟨"b5", "", "ip1", "m", 64⟩, ⟨"b6", "", "ip1", "m", 65⟩,
       ⟨"b7", "", "ip1", "m", 66⟩, ⟨"b8", "", "ip1", "m", 67⟩,
       ⟨"b9", "", "ip1", "m", 68⟩, ⟨"b10", "", "ip1", "m", 69⟩] 300 "ip1" = false ∧
    cacheVelocityLimited
      (some ⟨["b1", "b2", "b3", "b4", "b5", "b6", "b7", "b8", "b9", "b10"], 360⟩)
      300 "b11" = true := by
  decide

/-- C3 amended: both fallbacks use the same thresholds (10 / 5) over the
same trailing windows (5 minutes / 60 minutes) against durable
`ViewRecord` rows, but the velocity fallback counts rows rather than
distinct blogs and both fallbacks exclude the event being processed, so
when the cache holds exactly the durable window's distinct members the
two paths agree except exactly at the threshold boundary: with `n`
prior distinct in-window members and a fresh current member, the cache
decides `n + 1 > threshold` while the fallback decides
`n > threshold`. -/
theorem fallback_window_characterization
    (records : List ViewRecord) (now : Int) (ip blogID userID : String)
    (w uw : SetWindow)
    (hwm : w.members =
      ((getRecentViewsByIP records ip (now - 300)).map (fun r => r.blogId)).dedup)
    (hwe : now < w.expiry)
    (hfresh : blogID ∉ w.members)
    (hnodupV : ((getRecentViewsByIP records ip (now - 300)).map
      (fun r => r.blogId)).Nodup)
    (hum : uw.members =
      ((getRecentViewsByUser records userID (now - 3600)).map
        (fun r => r.ipAddress)).dedup)
    (hue : now < uw.expiry) :
    (dbVelocityLimited records now ip =
      decide ((getRecentViewsByIP records ip (now - 300)).length > 10)) ∧
    (cacheVelocityLimited (some w) now blogID =
      decide ((getRecentViewsByIP records ip (now - 300)).length + 1 > 10)) ∧
    (cacheVelocityLimited (some w) now blogID = dbVelocityLimited records now ip ↔
      (getRecentViewsByIP records ip (now - 300)).length ≠ 10) ∧
    (dbRotationLimited records now userID = decide (uw.members.length > 5)) ∧
    (ip ∈ uw.members →
      cacheRotationLimited (some uw) now ip = dbRotationLimited records now userID) ∧
    (ip ∉ uw.members →
      cacheRotationLimited (some uw) now ip = decide (uw.members.length + 1 > 5) ∧
      (cacheRotationLimited (some uw) now ip = dbRotationLimited records now userID ↔
        uw.members.length ≠ 5)) := by
  have hlenV : w.members.length = (getRecentViewsByIP records ip (now - 300)).length := by
    rw [hwm, List.dedup_eq_self.mpr hnodupV, List.length_map]
  have hcacheV : cacheVelocityLimited (some w) now blogID =
      decide (w.members.length + 1 > 10) := by
    unfold cacheVelocityLimited addToWindow windowCard
    simp only [if_pos hwe, hfresh, if_neg, not_false_iff]
    have hlt : now < now + 300 := by omega
    simp [hlt, hfresh]
  have hcacheR : cacheRotationLimited (some uw) now ip =
      decide ((if ip ∈ uw.members then uw.members.length else uw.members.length + 1) > 5) := by
    unfold cacheRotationLimited addToWindow windowCard
    have hlt : now < now + 3600 := by omega
    by_cases hmem : ip ∈ uw.members <;> simp [hue, hlt, hmem]
  have hdbR : dbRotationLimited records now userID = decide (uw.members.length > 5) := by
    unfold dbRotationLimited
    rw [hum]
  refine ⟨rfl, ?_, ?_, hdbR, ?_, ?_⟩
  · rw [hcacheV, hlenV]
  · rw [hcacheV, hlenV]
    unfold dbVelocityLimited
    rw [decide_eq_decide]
    omega
  · intro hmem
    rw [hcacheR, hdbR]
    simp [hmem]
  · intro hmem
    rw [hcacheR, hdbR, if_neg hmem]
    refine ⟨rfl, ?_⟩
    rw [decide_eq_decide]
    omega

/-- Witness for the amended C3 at a concrete history: three prior
in-window records, fresh blog and fresh IP — both paths agree (3 is not
at either threshold boundary). -/
theorem fallback_window_characterization_witness :
    (dbVelocityLimited
      [⟨"b1", "u1", "ip1", "m", 100⟩, ⟨"b2", "u1", "ip1", "m", 110⟩,
       ⟨"b3", "u1", "ip1", "m", 120⟩] 300 "ip1" =
      decide ((getRecentViewsByIP
        [⟨"b1", "u1", "ip1", "m", 100⟩, ⟨"b2", "u1", "ip1", "m", 110⟩,
         ⟨"b3", "u1", "ip1", "m", 120⟩] "ip1" ((300 : Int) - 300)).length > 10)) ∧
    (cacheVelocityLimited (some ⟨["b1", "b2", "b3"], 420⟩) 300 "b4" =
      decide ((getRecentViewsByIP
        [⟨"b1", "u1", "ip1", "m", 100⟩, ⟨"b2", "u1", "ip1", "m", 110⟩,
         ⟨"b3", "u1", "ip1", "m", 120⟩] "ip1" ((300 : Int) - 300)).length + 1 > 10)) ∧
    (cacheVelocityLimited (some ⟨["b1", "b2", "b3"], 420⟩) 300 "b4" =
      dbVelocityLimited
        [⟨"b1", "u1", "ip1", "m", 100⟩, ⟨"b2", "u1", "ip1", "m", 110⟩,
         ⟨"b3", "u1", "ip1", "m", 120⟩] 300 "ip1" ↔
      (getRecentViewsByIP
        [⟨"b1", "u1", "ip1", "m", 100⟩, ⟨"b2", "u1", "ip1", "m", 110⟩,
         ⟨"b3", "u1", "ip1", "m", 120⟩] "ip1" ((300 : Int) - 300)).length ≠ 10) ∧
    (dbRotationLimited
      [⟨"b1", "u1", "ip1", "m", 100⟩, ⟨"b2", "u1", "ip1", "m", 110⟩,
       ⟨"b3", "u1", "ip1", "m", 120⟩] 300 "u1" = decide (["ip1"].length > 5)) ∧
    (("ip1" : String) ∈ ["ip1"] →
      cacheRotationLimited (some ⟨["ip1"], 3700⟩) 300 "ip1" =
        dbRotationLimited
          [⟨"b1", "u1", "ip1", "m", 100⟩, ⟨"b2", "u1", "ip1", "m", 110⟩,
           ⟨"b3", "u1", "ip1", "m", 120⟩] 300 "u1") ∧
    (("ip1" : String) ∉ ["ip1"] →
      cacheRotationLimited (some ⟨["ip1"], 3700⟩) 300 "ip1" =
        decide (["ip1"].length + 1 > 5) ∧
      (cacheRotationLimited (some ⟨["ip1"], 3700⟩) 300 "ip1" =
        dbRotationLimited
          [⟨"b1", "u1", "ip1", "m", 100⟩, ⟨"b2", "u1", "ip1", "m", 110⟩,
           ⟨"b3", "u1", "ip1", "m", 120⟩] 300 "u1" ↔ (["ip1"].length ≠ 5))) :=
  fallback_window_characterization
    [⟨"b1", "u1", "ip1", "m", 100⟩, ⟨"b2", "u1", "ip1", "m", 110⟩,
     ⟨"b3", "u1", "ip1", "m", 120⟩] 300 "ip1" "b4" "u1"
    ⟨["b1", "b2", "b3"], 420⟩ ⟨["ip1"], 3700⟩
    (by decide) (by decide) (by decide) (by decide) (by decide) (by decide)

/-! ## C2: the IP velocity scenario -/

/-- Expected outcomes of a run of same-IP anonymous view events on
distinct blogs when `k` distinct blogs are already in the live per-IP
set: the i-th event is counted while the set stays within the
threshold, and velocity-limited afterwards. -/
def velocityOutcomes (k n : Nat) : List TrackOutcome :=
  (List.range n).map (fun i =>
    if k + i + 1 ≤ 10 then TrackOutcome.counted else TrackOutcome.velocityLimited)

lemma velocityOutcomes_succ (k n : Nat) :
    velocityOutcomes k (n + 1) =
      (if k + 1 ≤ 10 then TrackOutcome.counted else TrackOutcome.velocityLimited) ::
        velocityOutcomes (k + 1) n := by
  unfold velocityOutcomes
  rw [List.range_succ_eq_map, List.map_cons, List.map_map]
  refine congrArg₂ _ (by norm_num) ?_
  refine List.map_congr_left ?_
  intro i _
  simp only [Function.comp]
  rw [show k + (i + 1) + 1 = k + 1 + i + 1 by omega]

/-- One step of the §8 velocity scenario: an anonymous view event from
IP `ip` on a fresh, available blog `b`, with the per-IP set holding the
`done` blogs and unexpired relative to `t`.  The event is counted when
the set (current blog included) stays within the 10-blog threshold and
velocity-limited otherwise; either way the blog joins the set and the
TTL is refreshed. -/
lemma trackView_velocity_step (ip ua b : String) (t : Int) (st : ViewState)
    (done : List String) (tprev : Int)
    (hua : isBot ua = false) (hip : ip ≠ "") (hb : b ≠ "")
    (hwin : st.ipWindows = if done = [] then [] else [(ip, ⟨done, tprev + 300⟩)])
    (hgap : done = [] ∨ t - tprev < 300)
    (hbfresh : b ∉ done)
    (hrec : ∀ r ∈ st.records, r.ipAddress = ip ∧ r.blogId ∈ done)
    (havail : st.blogs.any (fun x => x.id == b && !x.isDeleted) = true) :
    ∃ st2 : ViewState,
      trackBlogView t b "" ip ua true false false st =
        ⟨if done.length + 1 ≤ 10 then .counted else .velocityLimited, st2⟩ ∧
      st2.ipWindows = [(ip, ⟨done ++ [b], t + 300⟩)] ∧
      (∀ r ∈ st2.records, r.ipAddress = ip ∧ r.blogId ∈ done ++ [b]) ∧
      (∀ bid : String, st2.blogs.any (fun x => x.id == bid && !x.isDeleted) =
        st.blogs.any (fun x => x.id == bid && !x.isDeleted)) := by
  have hbeq : (b == "") = false := beq_eq_false_iff_ne.mpr hb
  have hipeq : (ip == "") = false := beq_eq_false_iff_ne.mpr hip
  have hded : hasViewedRecently st.records b "" ip = false := by
    unfold hasViewedRecently
    rw [List.any_eq_false]
    intro r hr
    have h2 := (hrec r hr).2
    have hne : (r.blogId == b) = false :=
      beq_eq_false_iff_ne.mpr (fun he => hbfresh (he ▸ h2))
    simp [hne]
  have hw : (st.ipWindows.find? (fun kv => kv.1 == ip)).map (fun kv => kv.2) =
      (if done = [] then none else some ⟨done, tprev + 300⟩) := by
    rw [hwin]
    by_cases hdone : done = [] <;> simp [hdone, List.find?_cons]
  have hadd : addToWindow
      ((st.ipWindows.find? (fun kv => kv.1 == ip)).map (fun kv => kv.2)) t 300 b =
      ⟨done ++ [b], t + 300⟩ := by
    rw [hw]
    by_cases hdone : done = []
    · simp [hdone, addToWindow]
    · rcases hgap with h | h
      · exact absurd h hdone
      · have hlt : t < tprev + 300 := by omega
        simp [hdone, addToWindow, hlt, hbfresh]
  have hvel : cacheVelocityLimited
      ((st.ipWindows.find? (fun kv => kv.1 == ip)).map (fun kv => kv.2)) t b =
      decide (done.length + 1 > 10) := by
    unfold cacheVelocityLimited
    rw [hadd]
    unfold windowCard
    have hlt : t < t + 300 := by omega
    simp [hlt]
  have hfilter : st.ipWindows.filter (fun kv => kv.1 != ip) = [] := by
    rw [hwin]
    by_cases hdone : done = [] <;> simp [hdone]
  have hcommit : ∀ st1 : ViewState, st1.blogs = st.blogs → st1.records = st.records →
      ∃ stF : ViewState, commitView t b "" ip ua false st1 = ⟨.counted, stF⟩ ∧
        stF.ipWindows = st1.ipWindows ∧
        (∀ r ∈ stF.records, r.ipAddress = ip ∧ r.blogId ∈ done ++ [b]) ∧
        (∀ bid : String, stF.blogs.any (fun x => x.id == bid && !x.isDeleted) =
          st.blogs.any (fun x => x.id == bid && !x.isDeleted)) := by
    intro st1 hblogs1 hrecords
    have hinc : incrementViewCount b st1.blogs =
        .ok (updateFirst (fun x => x.id == b && !x.isDeleted)
          (fun x => { x with viewCount := x.viewCount + 1 }) st.blogs) := by
      unfold incrementViewCount
      rw [hblogs1, havail]
      simp
    refine ⟨⟨updateBlogPopularity b (updateFirst (fun x => x.id == b && !x.isDeleted)
        (fun x => { x with viewCount := x.viewCount + 1 }) st.blogs),
      st1.records ++ [(⟨b, "", ip, ua, t⟩ : ViewRecord)],
      st1.ipWindows, st1.userWindows⟩, ?_, rfl, ?_, ?_⟩
    · unfold commitView
      rw [hinc]
      rfl
    · intro r hr
      simp only [hrecords] at hr
      rcases List.mem_append.mp hr with hr | hr
      · exact ⟨(hrec r hr).1, List.mem_append_left _ (hrec r hr).2⟩
      · simp only [List.mem_singleton] at hr
        subst hr
        exact ⟨rfl, by simp⟩
    · intro bid
      rw [updateBlogPopularity_any b (fun x => x.id == bid && !x.isDeleted)
        (fun x n => rfl)]
      exact @any_updateFirst Blog (fun x => x.id == b && !x.isDeleted)
        (fun x => x.id == bid && !x.isDeleted)
        (fun x => { x with viewCount := x.viewCount + 1 }) (fun x => rfl) st.blogs
  unfold trackBlogView
  simp only [hbeq, hua, hded, hipeq, Bool.and_false, Bool.false_eq_true, if_false,
    Bool.true_and, show (("" : String) == "") = true from rfl, if_true,
    bne_self_eq_false]
  rw [hvel, hfilter, hadd]
  simp only [List.nil_append]
  by_cases hth : done.length + 1 ≤ 10
  · have hd : decide (done.length + 1 > 10) = false := by
      rw [decide_eq_false_iff_not]
      omega
    rw [hd, if_pos hth]
    simp only [Bool.false_eq_true, if_false]
    rcases hcommit { st with ipWindows := [(ip, ⟨done ++ [b], t + 300⟩)] } rfl rfl with
      ⟨stF, hF, hFwin, hFrec, hFblogs⟩
    exact ⟨stF, hF, hFwin, hFrec, hFblogs⟩
  · have hd : decide (done.length + 1 > 10) = true := by
      rw [decide_eq_true_eq]
      omega
    rw [hd, if_neg hth]
    simp only [if_true]
    refine ⟨{ st with ipWindows := [(ip, ⟨done ++ [b], t + 300⟩)] }, rfl, rfl, ?_, ?_⟩
    · intro r hr
      exact ⟨(hrec r hr).1, List.mem_append_left _ (hrec r hr).2⟩
    · intro bid
      rfl

/-- Running same-IP anonymous view events on fresh distinct blogs with
consecutive gaps under the 5-minute TTL: with `done` blogs already in
the live set, the i-th event is counted exactly while the set stays at
or below 10 members. -/
lemma runViews_velocity_spec (ip ua : String) (hua : isBot ua = false) (hip : ip ≠ "") :
    ∀ (evs : List (Int × String)) (done : List String) (tprev : Int) (st : ViewState),
      st.ipWindows = (if done = [] then [] else [(ip, ⟨done, tprev + 300⟩)]) →
      (∀ r ∈ st.records, r.ipAddress = ip ∧ r.blogId ∈ done) →
      (done ++ evs.map Prod.snd).Nodup →
      (∀ e ∈ evs, e.2 ≠ "" ∧ st.blogs.any (fun x => x.id == e.2 && !x.isDeleted) = true) →
      List.Chain' (fun a c => c - a < 300) (evs.map Prod.fst) →
      (done = [] ∨ ∀ e : Int × String, evs.head? = some e → e.1 - tprev < 300) →
      runViews ip ua evs st = velocityOutcomes done.length evs.length := by
  intro evs
  induction evs with
  | nil =>
    intro done tprev st _ _ _ _ _ _
    rfl
  | cons ev rest ih =>
    obtain ⟨t, b⟩ := ev
    intro done tprev st hwin hrec hnodup hblogs hchain hhead
    have hbfresh : b ∉ done := by
      rcases List.nodup_append.mp (by simpa using hnodup) with ⟨-, -, hdisj⟩
      intro hmem
      exact hdisj hmem (by simp)
    have hgap : done = [] ∨ t - tprev < 300 := by
      rcases hhead with h | h
      · exact Or.inl h
      · exact Or.inr (h (t, b) rfl)
    have hb : b ≠ "" := (hblogs (t, b) (by simp)).1
    have havail := (hblogs (t, b) (by simp)).2
    rcases trackView_velocity_step ip ua b t st done tprev hua hip hb hwin hgap
        hbfresh hrec havail with ⟨st2, hstep, hwin2, hrec2, hblogs2⟩
    show (trackBlogView t b "" ip ua true false false st).outcome ::
      runViews ip ua rest (trackBlogView t b "" ip ua true false false st).state =
        velocityOutcomes done.length (rest.length + 1)
    rw [hstep, velocityOutcomes_succ]
    refine congrArg₂ List.cons rfl ?_
    have hchain1 : List.Chain' (fun a c => c - a < 300) (t :: rest.map Prod.fst) := by
      simpa using hchain
    rw [show done.length + 1 = (done ++ [b]).length by simp]
    apply ih (done ++ [b]) t st2
    · rw [hwin2]
      simp
    · exact hrec2
    · simpa [List.append_assoc] using hnodup
    · intro e he
      refine ⟨(hblogs e (List.mem_cons_of_mem _ he)).1, ?_⟩
      rw [hblogs2 e.2]
      exact (hblogs e (List.mem_cons_of_mem _ he)).2
    · exact (List.chain'_cons'.mp hchain1).2
    · right
      intro e hhead2
      have hc := (List.chain'_cons'.mp hchain1).1
      have hm : (rest.map Prod.fst).head? = some e.1 := by
        rw [List.head?_map, hhead2]
        rfl
      exact hc e.1 hm

/-- All event times inside one trailing-window-sized interval have
consecutive gaps below the window. -/
lemma chain'_of_span (t0 : Int) : ∀ {ts : List Int},
    (∀ t ∈ ts, t0 ≤ t ∧ t - t0 < 300) →
    List.Chain' (fun a c => c - a < 300) ts := by
  intro ts
  induction ts with
  | nil => intro _; simp
  | cons a l ih =>
    intro h
    rw [List.chain'_cons']
    refine ⟨?_, ih (fun t ht => h t (List.mem_cons_of_mem _ ht))⟩
    intro y hy
    have hya := h y (List.mem_cons_of_mem _ (List.mem_of_mem_head? hy))
    have haa := h a (by simp)
    omega

/-- C2 counterexample: eleven anonymous views from one IP on eleven
distinct, existing, published blogs, evenly spread over exactly six
minutes (36-second gaps).  The claim says all eleven are accepted
because the 5-minute sliding window no longer covers the earliest
events; the code still velocity-limits the 11th, because the per-IP
set's TTL is refreshed by every event, so the set never expires and
retains all earlier blogs. -/
theorem six_minute_spread_still_limited :
    runViews "ip1" "mozilla"
      [(0, "b1"), (36, "b2"), (72, "b3"), (108, "b4"), (144, "b5"), (180, "b6"),
       (216, "b7"), (252, "b8"), (288, "b9"), (324, "b10"), (360, "b11")]
      ⟨(List.range 11).map (fun i =>
        ⟨"b" ++ toString (i + 1), "s", "a", .published, false, 0, 0, 0, 0, 0, "", ""⟩),
       [], [], []⟩ =
      List.replicate 10 TrackOutcome.counted ++ [TrackOutcome.velocityLimited] ∧
    (360 : Int) - 0 = 360 := by
  exact ⟨by decide, by norm_num⟩

/-- C2 amended: (i) eleven same-IP view events on eleven distinct
available blogs arriving within 5 minutes: the first ten are counted
and the 11th is velocity-limited; (ii) the same holds for any spread —
six minutes included — whose consecutive gaps all stay under 5 minutes,
because the per-IP set's TTL is refreshed on every event; (iii) a
six-minute spread is fully accepted when a gap of at least 5 minutes
lets the per-IP set expire, e.g. one event at t=0 and ten events from
t=300s to t=360s. -/
theorem velocity_limit_scenarios :
    (∀ (ts : List Int) (bs : List String) (t0 : Int) (st : ViewState) (ip ua : String),
      isBot ua = false → ip ≠ "" →
      ts.length = 11 → bs.length = 11 →
      (∀ t ∈ ts, t0 ≤ t ∧ t - t0 < 300) →
      bs.Nodup →
      (∀ b ∈ bs, b ≠ "" ∧ st.blogs.any (fun x => x.id == b && !x.isDeleted) = true) →
      st.records = [] → st.ipWindows = [] →
      runViews ip ua (ts.zip bs) st =
        List.replicate 10 TrackOutcome.counted ++ [TrackOutcome.velocityLimited]) ∧
    (∀ (ts : List Int) (bs : List String) (st : ViewState) (ip ua : String),
      isBot ua = false → ip ≠ "" →
      ts.length = 11 → bs.length = 11 →
      List.Chain' (fun a c => c - a < 300) ts →
      bs.Nodup →
      (∀ b ∈ bs, b ≠ "" ∧ st.blogs.any (fun x => x.id == b && !x.isDeleted) = true) →
      st.records = [] → st.ipWindows = [] →
      runViews ip ua (ts.zip bs) st =
        List.replicate 10 TrackOutcome.counted ++ [TrackOutcome.velocityLimited]) ∧
    runViews "ip1" "mozilla"
      [(0, "b1"), (300, "b2"), (306, "b3"), (312, "b4"), (318, "b5"), (324, "b6"),
       (330, "b7"), (336, "b8"), (342, "b9"), (348, "b10"), (360, "b11")]
      ⟨(List.range 11).map (fun i =>
        ⟨"b" ++ toString (i + 1), "s", "a", .published, false, 0, 0, 0, 0, 0, "", ""⟩),
       [], [], []⟩ = List.replicate 11 TrackOutcome.counted := by
  have main : ∀ (ts : List Int) (bs : List String) (st : ViewState) (ip ua : String),
      isBot ua = false → ip ≠ "" →
      ts.length = 11 → bs.length = 11 →
      List.Chain' (fun a c => c - a < 300) ts →
      bs.Nodup →
      (∀ b ∈ bs, b ≠ "" ∧ st.blogs.any (fun x => x.id == b && !x.isDeleted) = true) →
      st.records = [] → st.ipWindows = [] →
      runViews ip ua (ts.zip bs) st =
        List.replicate 10 TrackOutcome.counted ++ [TrackOutcome.velocityLimited] := by
    intro ts bs st ip ua hua hip hts hbs hchain hnodup hblogs hrecords hwin
    have hfst : (ts.zip bs).map Prod.fst = ts :=
      List.map_fst_zip ts bs (by omega)
    have hsnd : (ts.zip bs).map Prod.snd = bs :=
      List.map_snd_zip ts bs (by omega)
    have hlen : (ts.zip bs).length = 11 := by
      rw [List.length_zip, hts, hbs]
      decide
    have hrun := runViews_velocity_spec ip ua hua hip (ts.zip bs) [] 0 st
      (by simpa using hwin)
      (by rw [hrecords]; intro r hr; simp at hr)
      (by rw [List.nil_append, hsnd]; exact hnodup)
      (by intro e he
          exact hblogs e.2 (List.of_mem_zip he).2)
      (by rw [hfst]; exact hchain)
      (Or.inl rfl)
    rw [hrun, hlen]
    decide
  refine ⟨?_, main, by decide⟩
  intro ts bs t0 st ip ua hua hip hts hbs hspan hnodup hblogs hrecords hwin
  exact main ts bs st ip ua hua hip hts hbs (chain'_of_span t0 hspan) hnodup hblogs
    hrecords hwin

/-- Witness for the amended C2: eleven one-second-apart events on
eleven concrete published blogs — ten counted, the 11th
velocity-limited. -/
theorem velocity_limit_scenarios_witness :
    runViews "ip1" "mozilla"
      ([(0 : Int), 1, 2, 3, 4, 5, 6, 7, 8, 9, 10].zip
        ["b1", "b2", "b3", "b4", "b5", "b6", "b7", "b8", "b9", "b10", "b11"])
      ⟨(List.range 11).map (fun i =>
        ⟨"b" ++ toString (i + 1), "s", "a", .published, false, 0, 0, 0, 0, 0, "", ""⟩),
       [], [], []⟩ =
      List.replicate 10 TrackOutcome.counted ++ [TrackOutcome.velocityLimited] :=
  velocity_limit_scenarios.1
    [(0 : Int), 1, 2, 3, 4, 5, 6, 7, 8, 9, 10]
    ["b1", "b2", "b3", "b4", "b5", "b6", "b7", "b8", "b9", "b10", "b11"]
    0
    ⟨(List.range 11).map (fun i =>
      ⟨"b" ++ toString (i + 1), "s", "a", .published, false, 0, 0, 0, 0, 0, "", ""⟩),
     [], [], []⟩
    "ip1" "mozilla"
    (by decide) (by decide) (by decide) (by decide) (by decide) (by decide)
    (by decide) (by decide) (by decide)

/-! ## The cache-aside read layer (blog_usecase.go + BlogCacheStore)

The outcome of one cache `GET` as the usecase sees it: an error (logged
and ignored), a miss, or a hit. -/

instance {ε α : Type} [DecidableEq ε] [DecidableEq α] : DecidableEq (Except ε α) :=
  fun a b =>
    match a, b with
    | .error e1, .error e2 =>
      if h : e1 = e2 then isTrue (by rw [h]) else isFalse (by intro hc; cases hc; exact h rfl)
    | .error _, .ok _ => isFalse (by intro hc; cases hc)
    | .ok _, .error _ => isFalse (by intro hc; cases hc)
    | .ok a1, .ok a2 =>
      if h : a1 = a2 then isTrue (by rw [h]) else isFalse (by intro hc; cases hc; exact h rfl)

inductive CacheGet (α : Type)
  | err
  | miss
  | hit (a : α)
deriving DecidableEq, Repr

structure BlogsPage where
  blogs : List Blog
  total : Int
deriving DecidableEq, Repr

/-- Result of a detail read: the returned value and the cache `SET`
calls issued (slug, blog). -/
structure DetailResult where
  result : Except String Blog
  setCalls : List (String × Blog)
deriving DecidableEq, Repr

/-- `BlogRepository.GetBlogBySlug` (blog_repo.go:148-161): `FindOne` on
`slug` and `is_deleted: false`; both a store failure (`dbErr`) and
`ErrNoDocuments` surface as errors. -/
def getBlogBySlugRepo (dbBlogs : List Blog) (dbErr : Bool) (slug : String) :
    Except String Blog :=
  if dbErr then .error "failed to retrieve blog post"
  else match dbBlogs.find? (fun x => x.slug == slug && !x.isDeleted) with
    | some x => .ok x
    | none => .error "blog not found or has been deleted"

/-- The durable-store path of `GetBlogDetail` (blog_usecase.go:270-291):
repo fetch, deleted/draft gating, then cache population on success. -/
def dbDetailPath (dbBlogs : List Blog) (dbErr : Bool) (slug : String)
    (cacheAvail : Bool) : DetailResult :=
  match getBlogBySlugRepo dbBlogs dbErr slug with
  | .error _ => ⟨.error "failed to get blog", []⟩
  | .ok b =>
    if b.isDeleted then ⟨.error "blog not found", []⟩
    else if b.status != BlogStatus.published && b.status != BlogStatus.archived then
      ⟨.error "blog not found", []⟩
    else ⟨.ok b, if cacheAvail then [(slug, b)] else []⟩

/-- `BlogUseCaseImpl.GetBlogDetail` (blog_usecase.go:238-292): cache
first — a hit is returned immediately only in a publicly-visible
status; a miss or a cache error falls through to the durable store. -/
def getBlogDetail (cacheAvail : Bool) (cg : CacheGet Blog) (dbBlogs : List Blog)
    (dbErr : Bool) (slug : String) : DetailResult :=
  if slug == "" then ⟨.error "slug is required", []⟩
  else if cacheAvail then
    match cg with
    | .hit b =>
      if b.status == BlogStatus.published || b.status == BlogStatus.archived then
        ⟨.ok b, []⟩
      else dbDetailPath dbBlogs dbErr slug true
    | _ => dbDetailPath dbBlogs dbErr slug true
  else dbDetailPath dbBlogs dbErr slug false

/-- `buildBlogsListCacheKey` (blog_usecase.go:65-75); the two dates are
already RFC3339-formatted ("" for nil). -/
def buildBlogsListCacheKey (page pageSize : Int) (sortBy sortOrder df dt : String) :
    String :=
  "blogs:list:p=" ++ toString page ++ ":s=" ++ toString pageSize ++
    ":sb=" ++ sortBy ++ ":so=" ++ sortOrder ++ ":df=" ++ df ++ ":dt=" ++ dt

/-- Result of a list read: (blogs, totalCount, currentPage, totalPages)
and the cache `SET` calls issued (key, page). -/
structure ListResult where
  result : Except String (List Blog × Int × Int × Int)
  setCalls : List (String × BlogsPage)
deriving DecidableEq, Repr

/-- `BlogUseCaseImpl.GetBlogs` (blog_usecase.go:154-235).  The repository
response (the page of blogs and the total count, or a store error) is
passed in as `dbRes`; Go integer division/modulus are `Int.tdiv` /
`Int.tmod`. -/
def getBlogs (cacheAvail : Bool) (cg : CacheGet BlogsPage)
    (dbRes : Except Unit (List Blog × Int))
    (page pageSize : Int) (sortBy sortOrder df dt : String) : ListResult :=
  match cacheAvail, cg with
  | true, .hit cached =>
    ⟨.ok (cached.blogs, cached.total, page,
      if pageSize > 0 then (cached.total + pageSize - 1).tdiv pageSize else 0), []⟩
  | _, _ =>
    let page1 := if page < 1 then 1 else page
    let pageSize1 := if pageSize < 1 then 10 else pageSize
    match dbRes with
    | .error _ => ⟨.error "failed to get blogs", []⟩
    | .ok (blogs, totalCount) =>
      let filtered := blogs.filter (fun b =>
        b.status == BlogStatus.published || b.status == BlogStatus.archived)
      let totalPages := totalCount.tdiv pageSize1 +
        (if totalCount.tmod pageSize1 != 0 then 1 else 0)
      ⟨.ok (filtered, totalCount, page1, totalPages),
        if cacheAvail then
          [(buildBlogsListCacheKey page1 pageSize1 sortBy sortOrder df dt,
            ⟨filtered, totalCount⟩)]
        else []⟩

/-! ## The Redis keyspace of BlogCacheStore and its invalidation -/

inductive CachePayload
  | blogPayload (b : Blog)
  | pagePayload (p : BlogsPage)
deriving DecidableEq, Repr

/-- The shared Redis keyspace: detail entries under `blog:slug:<slug>`,
list pages under `blogs:list:...` keys. -/
abbrev CacheMap := List (String × CachePayload)

def blogDetailKey (slug : String) : String := "blog:slug:" ++ slug

def keyStartsWith (s pre : String) : Bool :=
  startsWithChars s.data pre.data

def cacheLookup (c : CacheMap) (k : String) : Option CachePayload :=
  (c.find? (fun kv => kv.1 == k)).map (fun kv => kv.2)

/-- `BlogCacheStore.GetBlogBySlug` (store package): redis `GET` +
`json.Unmarshal`; an absent key is a miss and an unparseable payload is
also reported as a miss. -/
def cacheGetBlogBySlug (c : CacheMap) (slug : String) : CacheGet Blog :=
  match cacheLookup c (blogDetailKey slug) with
  | some (.blogPayload b) => .hit b
  | some (.pagePayload _) => .miss
  | none => .miss

/-- `BlogCacheStore.InvalidateBlogBySlug`: redis `DEL` of the detail
key. -/
def invalidateBlogBySlug (slug : String) (c : CacheMap) : CacheMap :=
  c.filter (fun kv => kv.1 != blogDetailKey slug)

/-- `BlogCacheStore.InvalidateBlogLists`: `SCAN`-and-`DEL` over the
`blogs:list:*` pattern (batched in the source; the batching does not
change which keys are deleted). -/
def invalidateBlogLists (c : CacheMap) : CacheMap :=
  c.filter (fun kv => !(keyStartsWith kv.1 "blogs:list:"))

/-! ## UpdateBlog (blog_usecase.go:295-379) -/

/-- Result of an update: the returned blog, the durable store and the
cache keyspace. -/
structure UpdateResult where
  result : Except String Blog
  db : List Blog
  cache : CacheMap
deriving DecidableEq, Repr

/-- `BlogRepository.GetBlogByID` (blog_repo.go:132-145). -/
def getBlogByID (dbBlogs : List Blog) (blogID : String) : Option Blog :=
  dbBlogs.find? (fun x => x.id == blogID && !x.isDeleted)

/-- `strings.ReplaceAll(strings.ToLower(title), " ", "-")`
(blog_usecase.go:324). -/
def slugify (title : String) : String :=
  ⟨(title.data.map Char.toLower).map (fun ch => if ch = ' ' then '-' else ch)⟩

/-- The per-document field updates of `UpdateBlog`
(blog_usecase.go:318-357): a title update regenerates the slug with a
fresh uuid suffix.  (`featured_image_id` and `published_at`, which no
claim mentions, are not modelled.) -/
def applyBlogFieldUpdates (title content : Option String)
    (status : Option BlogStatus) (uuidSuffix : String) (x : Blog) : Blog :=
  let x1 := match title with
    | some tl => { x with title := tl, slug := slugify tl ++ "-" ++ uuidSuffix }
    | none => x
  let x2 := match content with
    | some ct => { x1 with content := ct }
    | none => x1
  match status with
  | some stt => { x2 with status := stt }
  | none => x2

/-- `BlogRepository.UpdateBlog` applied to the one matching non-deleted
document. -/
def updatedBlogDB (blogID : String) (title content : Option String)
    (status : Option BlogStatus) (uuidSuffix : String) (db : List Blog) : List Blog :=
  updateFirst (fun x => x.id == blogID && !x.isDeleted)
    (applyBlogFieldUpdates title content status uuidSuffix) db

/-- The invalidation block of `UpdateBlog` (blog_usecase.go:366-376):
all list-page entries, the detail entry of the updated blog's current
slug, and — when the slug changed and the old slug was non-empty — the
previous slug's detail entry. -/
def invalidateAfterUpdate (oldSlug : String) (updatedBlog : Blog)
    (cacheAvail : Bool) (c : CacheMap) : CacheMap :=
  if cacheAvail then
    let ca := invalidateBlogLists c
    let cb := if updatedBlog.slug != "" then invalidateBlogBySlug updatedBlog.slug ca
      else ca
    if oldSlug != "" && updatedBlog.slug != oldSlug then
      invalidateBlogBySlug oldSlug cb
    else cb
  else c

/-- The write-and-invalidate tail of `UpdateBlog`
(blog_usecase.go:318-378): apply the field updates, re-read the blog,
then run the invalidation block. -/
def updateBlogCommit (blogID oldSlug : String) (title content : Option String)
    (status : Option BlogStatus) (uuidSuffix : String) (cacheAvail : Bool)
    (db : List Blog) (c : CacheMap) : UpdateResult :=
  match getBlogByID (updatedBlogDB blogID title content status uuidSuffix db) blogID with
  | none => ⟨.error "failed to get updated blog",
      updatedBlogDB blogID title content status uuidSuffix db, c⟩
  | some updatedBlog =>
    ⟨.ok updatedBlog, updatedBlogDB blogID title content status uuidSuffix db,
      invalidateAfterUpdate oldSlug updatedBlog cacheAvail c⟩

/-- `BlogUseCaseImpl.UpdateBlog` (blog_usecase.go:295-379): validation,
author check, content moderation (`aiFeedback` is the AI collaborator's
response), then the commit-and-invalidate tail. -/
def updateBlog (blogID authorID : String) (title content : Option String)
    (status : Option BlogStatus) (uuidSuffix : String)
    (aiFeedback : Except Unit String) (cacheAvail : Bool)
    (db : List Blog) (c : CacheMap) : UpdateResult :=
  if blogID == "" then ⟨.error "blog ID is required", db, c⟩
  else if authorID == "" then ⟨.error "author ID is required", db, c⟩
  else match getBlogByID db blogID with
  | none => ⟨.error "blog not found", db, c⟩
  | some blog =>
    if blog.authorId != authorID then
      ⟨.error "unauthorized: only the author can update this blog", db, c⟩
    else match content, aiFeedback with
    | some _, .error _ => ⟨.error "failed to check content", db, c⟩
    | some _, .ok fb =>
      if fb == "no" then ⟨.error "content contains inappropriate material", db, c⟩
      else updateBlogCommit blogID blog.slug title content status uuidSuffix
        cacheAvail db c
    | none, _ =>
      updateBlogCommit blogID blog.slug title content status uuidSuffix cacheAvail db c

/-! ## C5: cache errors never propagate out of the read paths -/

lemma dbDetailPath_result_cacheAvail (dbBlogs : List Blog) (dbErr : Bool)
    (slug : String) :
    (dbDetailPath dbBlogs dbErr slug true).result =
      (dbDetailPath dbBlogs dbErr slug false).result := by
  unfold dbDetailPath
  cases getBlogBySlugRepo dbBlogs dbErr slug with
  | error e => rfl
  | ok b =>
    by_cases h1 : b.isDeleted = true
    · simp [h1]
    · by_cases h2 : (b.status != BlogStatus.published &&
          b.status != BlogStatus.archived) = true
      · simp [h1, h2]
      · simp [h1, h2]

/-- C5: when the cache tier errors on a read, `GetBlogDetail` and
`GetBlogs` return exactly the result they would return with no cache
configured: the error is absorbed, the durable store is consulted, and
no cache error reaches the caller. -/
theorem cache_errors_absorbed :
    (∀ (dbBlogs : List Blog) (dbErr : Bool) (slug : String) (cg : CacheGet Blog),
      (getBlogDetail true CacheGet.err dbBlogs dbErr slug).result =
        (getBlogDetail false cg dbBlogs dbErr slug).result) ∧
    (∀ (dbRes : Except Unit (List Blog × Int)) (page pageSize : Int)
        (sortBy sortOrder df dt : String) (cg : CacheGet BlogsPage),
      (getBlogs true CacheGet.err dbRes page pageSize sortBy sortOrder df dt).result =
        (getBlogs false cg dbRes page pageSize sortBy sortOrder df dt).result) := by
  constructor
  · intro dbBlogs dbErr slug cg
    unfold getBlogDetail
    by_cases hs : (slug == "") = true
    · simp [hs]
    · simp only [hs, Bool.false_eq_true, if_false, if_true]
      cases cg <;> exact dbDetailPath_result_cacheAvail dbBlogs dbErr slug
  · intro dbRes page pageSize sortBy sortOrder df dt cg
    unfold getBlogs
    cases dbRes with
    | error e => cases cg <;> rfl
    | ok pr =>
      obtain ⟨bs, tc⟩ := pr
      cases cg <;> rfl

/-! ## C6: drafts are never served by slug nor cached -/

lemma dbDetailPath_ok_shape {dbBlogs : List Blog} {dbErr : Bool} {slug : String}
    {cacheAvail : Bool} {b : Blog}
    (h : (dbDetailPath dbBlogs dbErr slug cacheAvail).result = .ok b) :
    (b.status = BlogStatus.published ∨ b.status = BlogStatus.archived) ∧
    dbBlogs.find? (fun x => x.slug == slug && !x.isDeleted) = some b := by
  unfold dbDetailPath getBlogBySlugRepo at h
  by_cases hderr : dbErr = true
  · rw [if_pos hderr] at h
    simp at h
  · rw [if_neg hderr] at h
    cases hf : dbBlogs.find? (fun x => x.slug == slug && !x.isDeleted) with
    | none => rw [hf] at h; simp at h
    | some b0 =>
      rw [hf] at h
      by_cases h1 : b0.isDeleted = true
      · simp [h1] at h
      · by_cases h2 : (b0.status != BlogStatus.published &&
            b0.status != BlogStatus.archived) = true
        · simp [h1, h2] at h
        · simp only [h1, h2, Bool.false_eq_true, if_false] at h
          have hb : b0 = b := by simpa using h
          subst hb
          refine ⟨?_, rfl⟩
          rcases Bool.and_eq_false_iff.mp (Bool.eq_false_iff.mpr h2) with h3 | h3
          · exact Or.inl (by simpa using h3)
          · exact Or.inr (by simpa using h3)

lemma dbDetailPath_setCalls_shape {dbBlogs : List Blog} {dbErr : Bool} {slug : String}
    {cacheAvail : Bool} {e : String × Blog}
    (h : e ∈ (dbDetailPath dbBlogs dbErr slug cacheAvail).setCalls) :
    (dbDetailPath dbBlogs dbErr slug cacheAvail).result = .ok e.2 ∧ e.1 = slug := by
  unfold dbDetailPath getBlogBySlugRepo at h ⊢
  by_cases hderr : dbErr = true
  · rw [if_pos hderr] at h ⊢
    simp at h
  · rw [if_neg hderr] at h ⊢
    cases hf : dbBlogs.find? (fun x => x.slug == slug && !x.isDeleted) with
    | none => rw [hf] at h; simp at h
    | some b0 =>
      rw [hf] at h
      by_cases h1 : b0.isDeleted = true
      · simp [h1] at h
      · by_cases h2 : (b0.status != BlogStatus.published &&
            b0.status != BlogStatus.archived) = true
        · simp [h1, h2] at h
        · simp only [h1, h2, Bool.false_eq_true, if_false] at h ⊢
          cases hc : cacheAvail with
          | false => rw [hc] at h; simp at h
          | true =>
            rw [hc] at h
            simp only [if_true, List.mem_singleton] at h
            subst h
            exact ⟨rfl, rfl⟩

/-- C6: for every cache and durable-store state, the detail read by slug
(i) never returns a draft blog, (ii) never issues a cache write holding
a draft blog, (iii) on a cache miss where the durable store holds a
non-deleted blog in published or archived status it writes that blog to
the detail cache and returns it, and (iv) when the durable store's blog
for the slug is a draft, the durable path reports "blog not found". -/
theorem detail_draft_never_served_or_cached :
    (∀ (cacheAvail : Bool) (cg : CacheGet Blog) (dbBlogs : List Blog) (dbErr : Bool)
        (slug : String) (b : Blog),
      (getBlogDetail cacheAvail cg dbBlogs dbErr slug).result = .ok b →
      b.status ≠ BlogStatus.draft) ∧
    (∀ (cacheAvail : Bool) (cg : CacheGet Blog) (dbBlogs : List Blog) (dbErr : Bool)
        (slug : String) (e : String × Blog),
      e ∈ (getBlogDetail cacheAvail cg dbBlogs dbErr slug).setCalls →
      e.2.status ≠ BlogStatus.draft) ∧
    (∀ (dbBlogs : List Blog) (slug : String) (b : Blog),
      slug ≠ "" →
      dbBlogs.find? (fun x => x.slug == slug && !x.isDeleted) = some b →
      (b.status = BlogStatus.published ∨ b.status = BlogStatus.archived) →
      getBlogDetail true CacheGet.miss dbBlogs false slug = ⟨.ok b, [(slug, b)]⟩) ∧
    (∀ (dbBlogs : List Blog) (slug : String) (b : Blog) (cacheAvail : Bool),
      dbBlogs.find? (fun x => x.slug == slug && !x.isDeleted) = some b →
      b.status = BlogStatus.draft →
      (dbDetailPath dbBlogs false slug cacheAvail).result = .error "blog not found") := by
  have hdb_ok : ∀ (dbBlogs : List Blog) (dbErr : Bool) (slug : String)
      (cacheAvail : Bool) (b : Blog),
      (dbDetailPath dbBlogs dbErr slug cacheAvail).result = .ok b →
      b.status ≠ BlogStatus.draft := by
    intro dbBlogs dbErr slug cacheAvail b h hd
    rcases (dbDetailPath_ok_shape h).1 with h1 | h1 <;> rw [hd] at h1 <;> cases h1
  refine ⟨?_, ?_, ?_, ?_⟩
  · intro cacheAvail cg dbBlogs dbErr slug b h
    unfold getBlogDetail at h
    by_cases hs : (slug == "") = true
    · rw [if_pos hs] at h; simp at h
    rw [if_neg hs] at h
    cases hca : cacheAvail with
    | false => rw [hca] at h; exact hdb_ok _ _ _ _ _ h
    | true =>
      rw [hca] at h
      cases cg with
      | err => exact hdb_ok _ _ _ _ _ h
      | miss => exact hdb_ok _ _ _ _ _ h
      | hit bc =>
        have h2 : (if (bc.status == BlogStatus.published ||
            bc.status == BlogStatus.archived) = true then
              (⟨.ok bc, []⟩ : DetailResult)
            else dbDetailPath dbBlogs dbErr slug true).result = .ok b := h
        by_cases hst : (bc.status == BlogStatus.published ||
            bc.status == BlogStatus.archived) = true
        · rw [if_pos hst] at h2
          have hb : bc = b := by simpa using h2
          subst hb
          intro hd
          rw [hd] at hst
          simp at hst
        · rw [if_neg hst] at h2
          exact hdb_ok _ _ _ _ _ h2
  · intro cacheAvail cg dbBlogs dbErr slug e h
    unfold getBlogDetail at h
    by_cases hs : (slug == "") = true
    · rw [if_pos hs] at h; simp at h
    rw [if_neg hs] at h
    have hfin : ∀ ca2 : Bool, e ∈ (dbDetailPath dbBlogs dbErr slug ca2).setCalls →
        e.2.status ≠ BlogStatus.draft := by
      intro ca2 hmem
      exact hdb_ok _ _ _ _ _ (dbDetailPath_setCalls_shape hmem).1
    cases hca : cacheAvail with
    | false => rw [hca] at h; exact hfin false h
    | true =>
      rw [hca] at h
      cases cg with
      | err => exact hfin true h
      | miss => exact hfin true h
      | hit bc =>
        have h2 : e ∈ (if (bc.status == BlogStatus.published ||
            bc.status == BlogStatus.archived) = true then
              (⟨.ok bc, []⟩ : DetailResult)
            else dbDetailPath dbBlogs dbErr slug true).setCalls := h
        by_cases hst : (bc.status == BlogStatus.published ||
            bc.status == BlogStatus.archived) = true
        · rw [if_pos hst] at h2; simp at h2
        · rw [if_neg hst] at h2; exact hfin true h2
  · intro dbBlogs slug b hs hf hstat
    have hsb : (slug == "") = false := beq_eq_false_iff_ne.mpr hs
    have hdel : b.isDeleted = false := by
      have hp := List.find?_some hf
      simp only [Bool.and_eq_true, Bool.not_eq_true'] at hp
      exact hp.2
    have hstb : (b.status != BlogStatus.published &&
        b.status != BlogStatus.archived) = false := by
      rcases hstat with h1 | h1 <;> rw [h1] <;> rfl
    unfold getBlogDetail dbDetailPath getBlogBySlugRepo
    rw [hsb, hf]
    simp [hdel, hstb]
  · intro dbBlogs slug b cacheAvail hf hd
    have hdel : b.isDeleted = false := by
      have hp := List.find?_some hf
      simp only [Bool.and_eq_true, Bool.not_eq_true'] at hp
      exact hp.2
    unfold dbDetailPath getBlogBySlugRepo
    rw [hf]
    simp [hdel, hd]

/-- Witness for C6: a published blog behind a fresh slug on a cache
miss is served and cached; a draft behind its slug is reported
not-found. -/
theorem detail_draft_witness :
    getBlogDetail true CacheGet.miss
      [⟨"i1", "s1", "a1", .published, false, 0, 0, 0, 0, 0, "t", "c"⟩] false "s1" =
      ⟨.ok ⟨"i1", "s1", "a1", .published, false, 0, 0, 0, 0, 0, "t", "c"⟩,
        [("s1", ⟨"i1", "s1", "a1", .published, false, 0, 0, 0, 0, 0, "t", "c"⟩)]⟩ ∧
    (dbDetailPath [⟨"i2", "s2", "a1", .draft, false, 0, 0, 0, 0, 0, "t", "c"⟩]
      false "s2" true).result = .error "blog not found" :=
  ⟨detail_draft_never_served_or_cached.2.2.1
      [⟨"i1", "s1", "a1", .published, false, 0, 0, 0, 0, 0, "t", "c"⟩] "s1"
      ⟨"i1", "s1", "a1", .published, false, 0, 0, 0, 0, 0, "t", "c"⟩
      (by decide) (by decide) (Or.inl rfl),
   detail_draft_never_served_or_cached.2.2.2
      [⟨"i2", "s2", "a1", .draft, false, 0, 0, 0, 0, 0, "t", "c"⟩] "s2"
      ⟨"i2", "s2", "a1", .draft, false, 0, 0, 0, 0, 0, "t", "c"⟩ true
      (by decide) rfl⟩

/-! ## C7: cache invalidation after a blog update -/

lemma cacheLookup_invalidateBlogBySlug (slug : String) (c : CacheMap) :
    cacheLookup (invalidateBlogBySlug slug c) (blogDetailKey slug) = none := by
  unfold cacheLookup invalidateBlogBySlug
  rw [List.find?_eq_none.mpr]
  · rfl
  · intro kv hkv
    rcases List.mem_filter.mp hkv with ⟨-, hp⟩
    simp only [bne_iff_ne, ne_eq, decide_not] at hp
    simpa using hp

lemma cacheLookup_none_of_filter {c : CacheMap} {k : String}
    (q : String × CachePayload → Bool) (h : cacheLookup c k = none) :
    cacheLookup (c.filter q) k = none := by
  unfold cacheLookup at h ⊢
  rw [List.find?_eq_none.mpr]
  · rfl
  · intro kv hkv
    have hmem := (List.mem_filter.mp hkv).1
    have hall := List.find?_eq_none.mp (by
      cases hfind : c.find? (fun kv => kv.1 == k) with
      | none => rfl
      | some x => rw [hfind] at h; cases h)
    exact hall kv hmem

lemma cacheGetBlogBySlug_miss {c : CacheMap} {slug : String}
    (h : cacheLookup c (blogDetailKey slug) = none) :
    cacheGetBlogBySlug c slug = .miss := by
  unfold cacheGetBlogBySlug
  rw [h]

lemma mem_invalidateBlogLists {kv : String × CachePayload} {c : CacheMap}
    (h : kv ∈ invalidateBlogLists c) : keyStartsWith kv.1 "blogs:list:" = false := by
  rcases List.mem_filter.mp h with ⟨-, hp⟩
  simpa using hp

/-- The invalidation block with the cache available: the list namespace
is empty, the updated slug's detail entry is gone, and when the slug
changed (and the old one was non-empty) the old slug's entry is gone
too. -/
lemma invalidateAfterUpdate_spec (oldSlug : String) (ub : Blog) (c : CacheMap)
    (hslug : ub.slug ≠ "") :
    (∀ kv ∈ invalidateAfterUpdate oldSlug ub true c,
      keyStartsWith kv.1 "blogs:list:" = false) ∧
    cacheGetBlogBySlug (invalidateAfterUpdate oldSlug ub true c) ub.slug = .miss ∧
    (oldSlug ≠ "" → oldSlug ≠ ub.slug →
      cacheGetBlogBySlug (invalidateAfterUpdate oldSlug ub true c) oldSlug = .miss) := by
  unfold invalidateAfterUpdate
  have hsne : (ub.slug != "") = true := bne_iff_ne.mpr hslug
  simp only [hsne, if_true, if_pos]
  by_cases hold : (oldSlug != "" && ub.slug != oldSlug) = true
  · simp only [hold, if_true, if_pos]
    refine ⟨?_, ?_, ?_⟩
    · intro kv hkv
      exact mem_invalidateBlogLists
        ((List.mem_filter.mp ((List.mem_filter.mp hkv).1)).1)
    · exact cacheGetBlogBySlug_miss (cacheLookup_none_of_filter _
        (cacheLookup_invalidateBlogBySlug ub.slug _))
    · intro _ _
      exact cacheGetBlogBySlug_miss (cacheLookup_invalidateBlogBySlug oldSlug _)
  · simp only [hold, Bool.false_eq_true, if_false]
    refine ⟨?_, ?_, ?_⟩
    · intro kv hkv
      exact mem_invalidateBlogLists ((List.mem_filter.mp hkv).1)
    · exact cacheGetBlogBySlug_miss (cacheLookup_invalidateBlogBySlug ub.slug _)
    · intro h1 h2
      exact absurd (by
        simp only [Bool.and_eq_true, bne_iff_ne, ne_eq]
        exact ⟨h1, fun he => h2 he.symm⟩) hold

/-- A successful `updateBlogCommit` returns the re-read blog and its
cache is exactly the invalidation block applied for that blog. -/
lemma updateBlogCommit_ok_cache (blogID oldSlug : String)
    (title content : Option String) (status : Option BlogStatus)
    (uuidSuffix : String) (cacheAvail : Bool) (db : List Blog) (c : CacheMap)
    (ub : Blog)
    (h : (updateBlogCommit blogID oldSlug title content status uuidSuffix
      cacheAvail db c).result = .ok ub) :
    (updateBlogCommit blogID oldSlug title content status uuidSuffix
      cacheAvail db c).cache = invalidateAfterUpdate oldSlug ub cacheAvail c := by
  unfold updateBlogCommit at h ⊢
  cases hg : getBlogByID (updatedBlogDB blogID title content status uuidSuffix db)
      blogID with
  | none => rw [hg] at h; cases h
  | some updatedBlog =>
    rw [hg] at h
    have hub : updatedBlog = ub := by simpa using h
    simp only []
    rw [hub]

/-- The successful paths of `UpdateBlog` all route through
`updateBlogCommit` with the pre-update blog's slug as the old slug. -/
lemma updateBlog_ok_shape (blogID authorID : String) (title content : Option String)
    (status : Option BlogStatus) (uuidSuffix : String)
    (aiFeedback : Except Unit String) (cacheAvail : Bool)
    (db : List Blog) (c : CacheMap) (ub : Blog)
    (h : (updateBlog blogID authorID title content status uuidSuffix aiFeedback
      cacheAvail db c).result = .ok ub) :
    ∃ blog, getBlogByID db blogID = some blog ∧
      updateBlog blogID authorID title content status uuidSuffix aiFeedback
          cacheAvail db c =
        updateBlogCommit blogID blog.slug title content status uuidSuffix
          cacheAvail db c := by
  unfold updateBlog at h ⊢
  by_cases h1 : (blogID == "") = true
  · rw [if_pos h1] at h; cases h
  rw [if_neg h1] at h ⊢
  by_cases h2 : (authorID == "") = true
  · rw [if_pos h2] at h; cases h
  rw [if_neg h2] at h ⊢
  cases hg : getBlogByID db blogID with
  | none => rw [hg] at h; cases h
  | some blog =>
    rw [hg] at h
    simp only [] at h
    refine ⟨blog, rfl, ?_⟩
    simp only []
    by_cases h3 : (blog.authorId != authorID) = true
    · rw [if_pos h3] at h; cases h
    · rw [if_neg h3] at h ⊢
      cases content with
      | none => rfl
      | some ct =>
        cases aiFeedback with
        | error e => cases h
        | ok fb =>
          simp only [] at h ⊢
          by_cases h4 : (fb == "no") = true
          · rw [if_pos h4] at h; cases h
          · rw [if_neg h4]

/-- C7: after every successful `UpdateBlog` with the cache configured,
every list-page cache entry is gone, the detail entry under the blog's
current (post-update) slug is gone, and if the update changed a
non-empty slug the previous slug's detail entry is gone as well, so the
next detail read by the old slug is a cache miss. -/
theorem update_invalidates_caches (blogID authorID : String)
    (title content : Option String) (status : Option BlogStatus)
    (uuidSuffix : String) (aiFeedback : Except Unit String)
    (db : List Blog) (c : CacheMap) (ub : Blog)
    (h : (updateBlog blogID authorID title content status uuidSuffix aiFeedback
      true db c).result = .ok ub)
    (hslug : ub.slug ≠ "") :
    (∀ kv ∈ (updateBlog blogID authorID title content status uuidSuffix aiFeedback
      true db c).cache, keyStartsWith kv.1 "blogs:list:" = false) ∧
    cacheGetBlogBySlug (updateBlog blogID authorID title content status uuidSuffix
      aiFeedback true db c).cache ub.slug = .miss ∧
    (∀ b0 : Blog, getBlogByID db blogID = some b0 → b0.slug ≠ "" →
      b0.slug ≠ ub.slug →
      cacheGetBlogBySlug (updateBlog blogID authorID title content status
        uuidSuffix aiFeedback true db c).cache b0.slug = .miss) := by
  rcases updateBlog_ok_shape blogID authorID title content status uuidSuffix
    aiFeedback true db c ub h with ⟨blog, hg, heq⟩
  rw [heq] at h ⊢
  rw [updateBlogCommit_ok_cache blogID blog.slug title content status uuidSuffix
    true db c ub h]
  rcases invalidateAfterUpdate_spec blog.slug ub c hslug with ⟨hl, hn, ho⟩
  refine ⟨hl, hn, ?_⟩
  intro b0 hb0 hb0ne hb0slug
  rw [hg] at hb0
  cases hb0
  exact ho hb0ne hb0slug

/-- Witness for C7: a title update regenerates the slug; afterwards the
list entry and both detail entries (old and new slug) are cache
misses. -/
theorem update_invalidates_caches_witness :
    (∀ kv ∈ (updateBlog "i1" "a1" (some "New Title") none none "u2" (.ok "yes") true
        [⟨"i1", "old-slug", "a1", .published, false, 0, 0, 0, 0, 0, "T", "C"⟩]
        [("blog:slug:old-slug", .blogPayload
            ⟨"i1", "old-slug", "a1", .published, false, 0, 0, 0, 0, 0, "T", "C"⟩),
         ("blogs:list:p=1:s=10:sb=:so=:df=:dt=", .pagePayload ⟨[], 0⟩)]).cache,
      keyStartsWith kv.1 "blogs:list:" = false) ∧
    cacheGetBlogBySlug (updateBlog "i1" "a1" (some "New Title") none none "u2"
        (.ok "yes") true
        [⟨"i1", "old-slug", "a1", .published, false, 0, 0, 0, 0, 0, "T", "C"⟩]
        [("blog:slug:old-slug", .blogPayload
            ⟨"i1", "old-slug", "a1", .published, false, 0, 0, 0, 0, 0, "T", "C"⟩),
         ("blogs:list:p=1:s=10:sb=:so=:df=:dt=", .pagePayload ⟨[], 0⟩)]).cache
      "new-title-u2" = .miss ∧
    (∀ b0 : Blog, getBlogByID
        [⟨"i1", "old-slug", "a1", .published, false, 0, 0, 0, 0, 0, "T", "C"⟩]
        "i1" = some b0 → b0.slug ≠ "" → b0.slug ≠ "new-title-u2" →
      cacheGetBlogBySlug (updateBlog "i1" "a1" (some "New Title") none none "u2"
          (.ok "yes") true
          [⟨"i1", "old-slug", "a1", .published, false, 0, 0, 0, 0, 0, "T", "C"⟩]
          [("blog:slug:old-slug", .blogPayload
              ⟨"i1", "old-slug", "a1", .published, false, 0, 0, 0, 0, 0, "T", "C"⟩),
           ("blogs:list:p=1:s=10:sb=:so=:df=:dt=", .pagePayload ⟨[], 0⟩)]).cache
        b0.slug = .miss) :=
  update_invalidates_caches "i1" "a1" (some "New Title") none none "u2" (.ok "yes")
    [⟨"i1", "old-slug", "a1", .published, false, 0, 0, 0, 0, 0, "T", "C"⟩]
    [("blog:slug:old-slug", .blogPayload
        ⟨"i1", "old-slug", "a1", .published, false, 0, 0, 0, 0, 0, "T", "C"⟩),
     ("blogs:list:p=1:s=10:sb=:so=:df=:dt=", .pagePayload ⟨[], 0⟩)]
    ⟨"i1", "new-title-u2", "a1", .published, false, 0, 0, 0, 0, 0, "New Title", "C"⟩
    (by decide) (by decide)

end Articulate
